import Mathlib

/-
Verification development for the takuzu solver.

This file gives a shallow embedding of the core of the repository
(src/src/grid.c together with the grid allocation helpers of
src/src/takuzu.c) and proves or refutes the frozen behavioural claims
about it.  Grids are row-major character buffers over the alphabet
'0', '1' and '_', exactly as in the C sources; coordinates are signed
integers and every access goes through the bounds-checked get_cell and
set_cell.  Loops are translated to folds over index ranges, the
solver's unbounded recursion and the generator's randomized loops are
given explicit fuel, and rand() is modelled as an arbitrary stream of
natural numbers.
-/

/-- The grid record of takuzu.h: a size and a row-major cell buffer. -/
structure t_grid where
  size : Nat
  grid : List Char
deriving DecidableEq, Repr

/-- The mode_t enumeration of takuzu.h. -/
inductive mode_t where
  | first
  | all
deriving DecidableEq, Repr

/-- grid_allocate of takuzu.c: a fresh size*size buffer filled with '_'. -/
def grid_allocate (size : Nat) : t_grid :=
  { size := size, grid := List.replicate (size * size) '_' }

/-- grid.c get_cell: bounds-checked read; out-of-bounds coordinates
yield the out-of-alphabet character ' '. -/
def get_cell (i j : Int) (g : t_grid) : Char :=
  if i < 0 || (g.size : Int) ≤ i || j < 0 || (g.size : Int) ≤ j then ' '
  else g.grid.getD (i.toNat * g.size + j.toNat) ' '

/-- grid.c set_cell: bounds-checked write that also rejects every value
other than '0' and '1'. -/
def set_cell (i j : Int) (g : t_grid) (v : Char) : t_grid :=
  if i < 0 || (g.size : Int) ≤ i || j < 0 || (g.size : Int) ≤ j then g
  else if v ≠ '0' ∧ v ≠ '1' then g
  else { g with grid := g.grid.set (i.toNat * g.size + j.toNat) v }

/-- grid.c are_rows_identical: every column position equal and non-'_'. -/
def are_rows_identical (row1 row2 : Int) (g : t_grid) : Bool :=
  (List.range g.size).all fun col : Nat =>
    (get_cell row1 (col : Int) g == get_cell row2 (col : Int) g) &&
      !(get_cell row1 (col : Int) g == '_')

/-- grid.c are_columns_identical. -/
def are_columns_identical (col1 col2 : Int) (g : t_grid) : Bool :=
  (List.range g.size).all fun row : Nat =>
    (get_cell (row : Int) col1 g == get_cell (row : Int) col2 g) &&
      !(get_cell (row : Int) col1 g == '_')

/-- grid.c check_same_col_or_row: true iff no pair of identical rows and
no pair of identical columns exists. -/
def check_same_col_or_row (g : t_grid) : Bool :=
  ((List.range g.size).all fun r1 : Nat =>
    (List.range g.size).all fun r2 : Nat =>
      !(decide (r1 < r2) && are_rows_identical (r1 : Int) (r2 : Int) g)) &&
  ((List.range g.size).all fun c1 : Nat =>
    (List.range g.size).all fun c2 : Nat =>
      !(decide (c1 < c2) && are_columns_identical (c1 : Int) (c2 : Int) g))

/-- The scanning loop of grid.c check_consecutive_zeros_ones: walk the
cells keeping run lengths of '0' and '1'; fail as soon as one exceeds 2. -/
def consec_scan : List Char → Nat → Nat → Bool
  | [], _, _ => true
  | c :: rest, cz, co =>
    let cz2 := if c == '0' then cz + 1 else 0
    let co2 := if c == '1' then co + 1 else 0
    if 2 < cz2 || 2 < co2 then false else consec_scan rest cz2 co2

/-- The cells of row (is_row = true) or column index, in scan order. -/
def line_cells (g : t_grid) (index : Int) (b : Bool) : List Char :=
  (List.range g.size).map fun i : Nat =>
    if b then get_cell index (i : Int) g else get_cell (i : Int) index g

/-- grid.c check_consecutive_zeros_ones. -/
def check_consecutive_zeros_ones (index : Int) (g : t_grid) (b : Bool) : Bool :=
  consec_scan (line_cells g index b) 0 0

/-- Number of cells of row equal to v (the row-counting loops of grid.c). -/
def count_in_row (g : t_grid) (row : Int) (v : Char) : Nat :=
  (List.range g.size).countP fun col : Nat => get_cell row (col : Int) g == v

/-- Number of cells of column equal to v. -/
def count_in_col (g : t_grid) (col : Int) (v : Char) : Nat :=
  (List.range g.size).countP fun row : Nat => get_cell (row : Int) col g == v

/-- grid.c check_number_of_zeros_ones: in every row and column the
number of '0' cells and of '1' cells is at most size / 2. -/
def check_number_of_zeros_ones (g : t_grid) : Bool :=
  ((List.range g.size).all fun row : Nat =>
    !(decide (g.size / 2 < count_in_row g (row : Int) '0') ||
      decide (g.size / 2 < count_in_row g (row : Int) '1'))) &&
  ((List.range g.size).all fun col : Nat =>
    !(decide (g.size / 2 < count_in_col g (col : Int) '0') ||
      decide (g.size / 2 < count_in_col g (col : Int) '1')))

/-- grid.c is_consistent: duplicate-line check, then balance bound, then
the run checks for every row and every column. -/
def is_consistent (g : t_grid) : Bool :=
  check_same_col_or_row g &&
  check_number_of_zeros_ones g &&
  ((List.range g.size).all fun row : Nat => check_consecutive_zeros_ones (row : Int) g true) &&
  ((List.range g.size).all fun col : Nat => check_consecutive_zeros_ones (col : Int) g false)

/-- grid.c is_valid: consistent and every cell is '0' or '1'. -/
def is_valid (g : t_grid) : Bool :=
  is_consistent g &&
  ((List.range g.size).all fun row : Nat =>
    (List.range g.size).all fun col : Nat =>
      (get_cell (row : Int) (col : Int) g == '0') ||
        (get_cell (row : Int) (col : Int) g == '1'))

/-- One guarded write shared by the heuristics of grid.c: when the extra
condition holds and the target cell currently reads '_', set it to v and
raise the changed flag; otherwise leave the state alone. -/
def try_fill (row col : Int) (v : Char) (extra : Bool) (s : t_grid × Bool) : t_grid × Bool :=
  if extra && (get_cell row col s.1 == '_') then (set_cell row col s.1 v, true) else s

/-- Loop body of grid.c apply_consecutive_zeros_ones_rows at (row, col):
on a horizontal '0' pair write '1' after it (or, when the after position
is off-board, before it), then the same for a '1' pair on the updated
grid. -/
def consec_rows_body (row col : Int) (s : t_grid × Bool) : t_grid × Bool :=
  let s1 :=
    if get_cell row col s.1 == '0' && get_cell row (col + 1) s.1 == '0' then
      let a := try_fill row (col + 2) '1' (decide (col + 2 < (s.1.size : Int))) s
      try_fill row (col - 1) '1'
        (decide ((a.1.size : Int) ≤ col + 2) && decide (0 ≤ col - 1)) a
    else s
  if get_cell row col s1.1 == '1' && get_cell row (col + 1) s1.1 == '1' then
    let a := try_fill row (col + 2) '0' (decide (col + 2 < (s1.1.size : Int))) s1
    try_fill row (col - 1) '0'
      (decide ((a.1.size : Int) ≤ col + 2) && decide (0 ≤ col - 1)) a
  else s1

/-- grid.c apply_consecutive_zeros_ones_rows: for every row, scan column
positions 0 .. size-3. -/
def apply_consecutive_zeros_ones_rows (g : t_grid) : t_grid × Bool :=
  (List.range g.size).foldl
    (fun s (row : Nat) =>
      (List.range (g.size - 2)).foldl
        (fun s2 (col : Nat) => consec_rows_body (row : Int) (col : Int) s2) s)
    (g, false)

/-- Loop body of grid.c apply_consecutive_zeros_ones_columns at
(col, row): on a vertical pair write the opposite value after the pair
and before the pair, each whenever that cell currently reads '_'. -/
def consec_cols_body (col row : Int) (s : t_grid × Bool) : t_grid × Bool :=
  let s1 :=
    if get_cell row col s.1 == '0' && get_cell (row + 1) col s.1 == '0' then
      let a := try_fill (row + 2) col '1' true s
      try_fill (row - 1) col '1' true a
    else s
  if get_cell row col s1.1 == '1' && get_cell (row + 1) col s1.1 == '1' then
    let a := try_fill (row + 2) col '0' true s1
    try_fill (row - 1) col '0' true a
  else s1

/-- grid.c apply_consecutive_zeros_ones_columns: for every column, scan
row positions 0 .. size-3. -/
def apply_consecutive_zeros_ones_columns (g : t_grid) : t_grid × Bool :=
  (List.range g.size).foldl
    (fun s (col : Nat) =>
      (List.range (g.size - 2)).foldl
        (fun s2 (row : Nat) => consec_cols_body (col : Int) (row : Int) s2) s)
    (g, false)

/-- The fill loop of the saturation heuristics: set every '_' cell of
the row to v. -/
def sat_fill_row (row : Int) (v : Char) (s : t_grid × Bool) : t_grid × Bool :=
  (List.range s.1.size).foldl (fun s2 (col : Nat) => try_fill row (col : Int) v true s2) s

/-- The fill loop of the saturation heuristics, column version. -/
def sat_fill_col (col : Int) (v : Char) (s : t_grid × Bool) : t_grid × Bool :=
  (List.range s.1.size).foldl (fun s2 (row : Nat) => try_fill (row : Int) col v true s2) s

/-- grid.c apply_all_zeros_filled_rows: when a row holds exactly
size / 2 cells equal to '0', fill its remaining '_' cells with '1'. -/
def apply_all_zeros_filled_rows (g : t_grid) : t_grid × Bool :=
  (List.range g.size).foldl
    (fun s (row : Nat) =>
      if count_in_row s.1 (row : Int) '0' == g.size / 2 then sat_fill_row (row : Int) '1' s else s)
    (g, false)

/-- grid.c apply_all_zeros_filled_columns. -/
def apply_all_zeros_filled_columns (g : t_grid) : t_grid × Bool :=
  (List.range g.size).foldl
    (fun s (col : Nat) =>
      if count_in_col s.1 (col : Int) '0' == g.size / 2 then sat_fill_col (col : Int) '1' s else s)
    (g, false)

/-- grid.c apply_all_ones_filled_rows. -/
def apply_all_ones_filled_rows (g : t_grid) : t_grid × Bool :=
  (List.range g.size).foldl
    (fun s (row : Nat) =>
      if count_in_row s.1 (row : Int) '1' == g.size / 2 then sat_fill_row (row : Int) '0' s else s)
    (g, false)

/-- grid.c apply_all_ones_filled_columns. -/
def apply_all_ones_filled_columns (g : t_grid) : t_grid × Bool :=
  (List.range g.size).foldl
    (fun s (col : Nat) =>
      if count_in_col s.1 (col : Int) '1' == g.size / 2 then sat_fill_col (col : Int) '0' s else s)
    (g, false)

/-- Loop body of grid.c middle_pattern_heuristic at (i, j): fill the
sandwiched cell (i, j) along its row, then the sandwiched cell (j, i)
along its column, each only while it reads '_'. -/
def middle_body (i j : Int) (s : t_grid × Bool) : t_grid × Bool :=
  let s1 :=
    if get_cell i j s.1 == '_' then
      let a :=
        if get_cell i (j - 1) s.1 == '0' && get_cell i (j + 1) s.1 == '0' then
          (set_cell i j s.1 '1', true)
        else s
      if get_cell i (j - 1) a.1 == '1' && get_cell i (j + 1) a.1 == '1' then
        (set_cell i j a.1 '0', true)
      else a
    else s
  if get_cell j i s1.1 == '_' then
    let b :=
      if get_cell (j - 1) i s1.1 == '0' && get_cell (j + 1) i s1.1 == '0' then
        (set_cell j i s1.1 '1', true)
      else s1
    if get_cell (j - 1) i b.1 == '1' && get_cell (j + 1) i b.1 == '1' then
      (set_cell j i b.1 '0', true)
    else b
  else s1

/-- grid.c middle_pattern_heuristic: i over 0 .. size-1, j over
1 .. size-1. -/
def middle_pattern_heuristic (g : t_grid) : t_grid × Bool :=
  (List.range g.size).foldl
    (fun s (i : Nat) =>
      (List.range' 1 (g.size - 1)).foldl
        (fun s2 (j : Nat) => middle_body (i : Int) (j : Int) s2) s)
    (g, false)

/-- Sequential composition of two heuristics accumulating the changed
flag, as the loop body of apply_heuristics_until_stable does. -/
def hcomp (h1 h2 : t_grid → t_grid × Bool) (g : t_grid) : t_grid × Bool :=
  let r1 := h1 g
  let r2 := h2 r1.1
  (r2.1, r1.2 || r2.2)

/-- One full pass of the heuristic battery in the order of
grid.c apply_heuristics_until_stable. -/
def heuristics_pass : t_grid → t_grid × Bool :=
  hcomp apply_all_zeros_filled_rows
    (hcomp apply_all_zeros_filled_columns
      (hcomp apply_all_ones_filled_rows
        (hcomp apply_all_ones_filled_columns
          (hcomp apply_consecutive_zeros_ones_rows
            (hcomp apply_consecutive_zeros_ones_columns middle_pattern_heuristic)))))

/-- Number of '_' cells in the buffer; this is the termination measure
of the while loop of apply_heuristics_until_stable. -/
def emptyCount (g : t_grid) : Nat := g.grid.count '_'

/-- The while (gridChanged) loop of apply_heuristics_until_stable,
with explicit fuel; every changing pass strictly decreases emptyCount,
so emptyCount g + 1 units of fuel always reach the stable state. -/
def heuristics_loop : Nat → t_grid → t_grid
  | 0, g => g
  | fuel + 1, g =>
    let r := heuristics_pass g
    if r.2 then heuristics_loop fuel r.1 else r.1

/-- grid.c apply_heuristics_until_stable: refuse inconsistent grids,
otherwise run passes until one reports no change. -/
def apply_heuristics_until_stable (g : t_grid) : t_grid :=
  if is_consistent g then heuristics_loop (emptyCount g + 1) g else g

/-- The choice record of grid.h. -/
structure choice_t where
  row : Int
  column : Int
  choice : Char
deriving DecidableEq, Repr

/-- grid.c check_consistency_after_placement: test consistency on a
copy with the tentative value written. -/
def check_consistency_after_placement (g : t_grid) (row col : Int) (v : Char) : Bool :=
  is_consistent (set_cell row col g v)

/-- grid.c grid_choice_ordered: the first '_' cell in row-major order,
or coordinates (-1, -1) when none exists. -/
def grid_choice_ordered (g : t_grid) (c : Char) : choice_t :=
  match (List.range (g.size * g.size)).find?
      (fun (idx : Nat) =>
        get_cell (Int.ofNat (idx / g.size)) (Int.ofNat (idx % g.size)) g == '_') with
  | some idx => { row := Int.ofNat (idx / g.size), column := Int.ofNat (idx % g.size), choice := c }
  | none => { row := -1, column := -1, choice := c }

/-- grid.c grid_choice_apply: bounds-checked application of a choice. -/
def grid_choice_apply (g : t_grid) (ch : choice_t) : t_grid :=
  if ch.row < 0 || (g.size : Int) ≤ ch.row || ch.column < 0 || (g.size : Int) ≤ ch.column then g
  else set_cell ch.row ch.column g ch.choice

/-- grid.c grid_choice: place the preferred value at the first empty
cell when the placement stays consistent. -/
def grid_choice (g : t_grid) (c : Char) : t_grid × Bool :=
  let best := grid_choice_ordered g c
  if check_consistency_after_placement g best.row best.column best.choice then
    (grid_choice_apply g best, true)
  else (g, false)

/-- grid.c grid_solver_backtracking with explicit recursion fuel.  The
return value models (returned solution pointer, final state of the
in-place mutated working grid, final value of *solution_count).  The
mode parameter is carried exactly as in the C source, which never reads
it inside this function. -/
def bt_restore (r : Option t_grid × t_grid × Nat) (snap : t_grid) :
    Option t_grid × t_grid × Nat :=
  match r with
  | (some s, g2, c2) => (some s, g2, c2)
  | (none, _, c2) => (none, snap, c2)

def grid_solver_backtracking_step
    (rec : mode_t → t_grid → Nat → Option t_grid × t_grid × Nat)
    (mode : mode_t) (g : t_grid) (cnt : Nat) : Option t_grid × t_grid × Nat :=
  if is_valid g then (some g, g, cnt + 1)
  else if !(is_consistent g) then (none, g, cnt)
  else
    let g1 := apply_heuristics_until_stable g
    if is_valid g1 then (some g1, g1, cnt + 1)
    else if !(is_consistent g1) then (none, g1, cnt)
    else
      let t0 := grid_choice g1 '0'
      let r0 :=
        if t0.2 then bt_restore (rec mode t0.1 cnt) g1
        else (none, g1, cnt)
      if r0.1.isSome then r0
      else
        let t1 := grid_choice g1 '1'
        if t1.2 then bt_restore (rec mode t1.1 r0.2.2) g1
        else (none, g1, r0.2.2)

def grid_solver_backtracking : Nat → mode_t → t_grid → Nat → Option t_grid × t_grid × Nat
  | 0 => fun _ g cnt => (none, g, cnt)
  | fuel + 1 => grid_solver_backtracking_step (grid_solver_backtracking fuel)

/-- One call of grid_solver_backtracking as the C program performs it:
the C recursion needs at most one level per remaining empty cell, so
emptyCount g + 1 units of fuel reproduce it faithfully. -/
def grid_solver_backtracking_run (mode : mode_t) (g : t_grid) (cnt : Nat) :
    Option t_grid × t_grid × Nat :=
  grid_solver_backtracking (emptyCount g + 1) mode g cnt

/-- grid.c find_first_solution: one backtracking call; the observable
effect on the working grid. -/
def find_first_solution (mode : mode_t) (g : t_grid) : t_grid :=
  (grid_solver_backtracking_run mode g 0).2.1

/-- The value of INT_MAX on the build platform of the C program. -/
def int_max : Nat := 2147483647

/-- The solution store declared in grid.c find_all_solutions
(line 1282): a stack array of t_grid pointers with the fixed capacity
INT_MAX, filled at index solution_count - 1. -/
def find_all_solutions_capacity : Nat := int_max

/-- The while (1) loop of grid.c find_all_solutions, with explicit
fuel counting loop iterations: call the backtracking solver on the same
working grid, stop when it returns NULL, otherwise store the returned
solution and iterate.  The result records the working grid, the final
solution_count, the stored solutions and whether the loop exited. -/
def find_all_loop (mode : mode_t) :
    Nat → t_grid → Nat → List t_grid → t_grid × Nat × List t_grid × Bool
  | 0, g, cnt, sols => (g, cnt, sols, false)
  | n + 1, g, cnt, sols =>
    match grid_solver_backtracking_run mode g cnt with
    | (none, g1, c1) => (g1, c1, sols, true)
    | (some s, g1, c1) => find_all_loop mode n g1 c1 (sols ++ [s])

/-- grid.c find_all_solutions: run the enumeration loop starting from
solution count 0 and an empty store. -/
def find_all_solutions (mode : mode_t) (fuel : Nat) (g : t_grid) :
    t_grid × Nat × List t_grid × Bool :=
  find_all_loop mode fuel g 0 []

/-- grid.c grid_solver: dispatch on the mode and return the working
grid pointer, which is never NULL. -/
def grid_solver (g : t_grid) (mode : mode_t) (fuel : Nat) : Option t_grid :=
  match mode with
  | mode_t.first => some (find_first_solution mode g)
  | mode_t.all => some (find_all_solutions mode fuel g).1

/-! ### Basic properties of bounds-checked cell access -/

/-- Flat buffer index of a pair of in-bounds coordinates. -/
def cellIdx (g : t_grid) (i j : Int) : Nat := i.toNat * g.size + j.toNat

lemma set_cell_size (i j : Int) (g : t_grid) (v : Char) :
    (set_cell i j g v).size = g.size := by
  unfold set_cell
  split
  · rfl
  · split
    · rfl
    · rfl

lemma get_cell_oob (i j : Int) (g : t_grid)
    (h : i < 0 ∨ (g.size : Int) ≤ i ∨ j < 0 ∨ (g.size : Int) ≤ j) :
    get_cell i j g = ' ' := by
  unfold get_cell
  rw [if_pos]
  simp only [Bool.or_eq_true, decide_eq_true_eq]
  tauto

lemma get_cell_inb (i j : Int) (g : t_grid)
    (h1 : 0 ≤ i) (h2 : i < (g.size : Int)) (h3 : 0 ≤ j) (h4 : j < (g.size : Int)) :
    get_cell i j g = g.grid.getD (cellIdx g i j) ' ' := by
  unfold get_cell
  rw [if_neg]
  · rfl
  · simp only [Bool.or_eq_true, decide_eq_true_eq]
    omega

lemma set_cell_invalid (i j : Int) (g : t_grid) (v : Char)
    (h0 : v ≠ '0') (h1 : v ≠ '1') : set_cell i j g v = g := by
  unfold set_cell
  split
  · rfl
  · rw [if_pos ⟨h0, h1⟩]

lemma set_cell_oob (i j : Int) (g : t_grid) (v : Char)
    (h : i < 0 ∨ (g.size : Int) ≤ i ∨ j < 0 ∨ (g.size : Int) ≤ j) :
    set_cell i j g v = g := by
  unfold set_cell
  rw [if_pos]
  simp only [Bool.or_eq_true, decide_eq_true_eq]
  tauto

lemma set_cell_inb (i j : Int) (g : t_grid) (v : Char)
    (h1 : 0 ≤ i) (h2 : i < (g.size : Int)) (h3 : 0 ≤ j) (h4 : j < (g.size : Int))
    (hv : v = '0' ∨ v = '1') :
    set_cell i j g v = { g with grid := g.grid.set (cellIdx g i j) v } := by
  unfold set_cell
  rw [if_neg, if_neg]
  · rfl
  · rcases hv with hv | hv <;> simp [hv]
  · simp only [Bool.or_eq_true, decide_eq_true_eq]
    omega

/-- A cell that reads as a non-blank character certifies its own bounds. -/
lemma get_cell_bounds (i j : Int) (g : t_grid) (h : get_cell i j g ≠ ' ') :
    0 ≤ i ∧ i < (g.size : Int) ∧ 0 ≤ j ∧ j < (g.size : Int) := by
  by_contra hc
  exact h (get_cell_oob i j g (by omega))

/-- A cell that reads as a non-blank character certifies that its flat
index is inside the buffer and what the buffer holds there. -/
lemma get_cell_entry (i j : Int) (g : t_grid) (c : Char)
    (h : get_cell i j g = c) (hc : c ≠ ' ') :
    cellIdx g i j < g.grid.length ∧ g.grid[cellIdx g i j]? = some c := by
  have hb := get_cell_bounds i j g (h ▸ hc)
  rw [get_cell_inb i j g hb.1 hb.2.1 hb.2.2.1 hb.2.2.2] at h
  rw [List.getD_eq_getElem?_getD] at h
  rcases he : g.grid[cellIdx g i j]? with _ | c2
  · rw [he] at h
    simp at h
    exact absurd h.symm hc
  · rw [he] at h
    simp at h
    exact ⟨(List.getElem?_eq_some_iff.mp he).1, by rw [h]⟩

lemma get_set_same_aux (i j : Int) (g : t_grid) (v : Char)
    (h1 : 0 ≤ i) (h2 : i < (g.size : Int)) (h3 : 0 ≤ j) (h4 : j < (g.size : Int))
    (hl : cellIdx g i j < g.grid.length) :
    get_cell i j { g with grid := g.grid.set (cellIdx g i j) v } = v := by
  have h2b : i < (({ g with grid := g.grid.set (cellIdx g i j) v } : t_grid).size : Int) := h2
  have h4b : j < (({ g with grid := g.grid.set (cellIdx g i j) v } : t_grid).size : Int) := h4
  rw [get_cell_inb i j _ h1 h2b h3 h4b]
  show (g.grid.set (cellIdx g i j) v).getD (cellIdx g i j) ' ' = v
  rw [List.getD_eq_getElem?_getD, List.getElem?_set_self hl]
  rfl

lemma cellIdx_inj (g : t_grid) (i j i2 j2 : Int)
    (h1 : 0 ≤ i) (h2 : i < (g.size : Int)) (h3 : 0 ≤ j) (h4 : j < (g.size : Int))
    (h5 : 0 ≤ i2) (h6 : i2 < (g.size : Int)) (h7 : 0 ≤ j2) (h8 : j2 < (g.size : Int))
    (he : cellIdx g i j = cellIdx g i2 j2) : i = i2 ∧ j = j2 := by
  unfold cellIdx at he
  have q2 : j.toNat < g.size := by omega
  have q4 : j2.toNat < g.size := by omega
  have e1 : i.toNat = i2.toNat := by
    rcases Nat.lt_trichotomy i.toNat i2.toNat with hlt | heq | hgt
    · have h9 : (i.toNat + 1) * g.size ≤ i2.toNat * g.size :=
        Nat.mul_le_mul_right _ (by omega)
      nlinarith
    · exact heq
    · have h9 : (i2.toNat + 1) * g.size ≤ i.toNat * g.size :=
        Nat.mul_le_mul_right _ (by omega)
      nlinarith
  rw [e1] at he
  constructor <;> omega

/-- Reading back a freshly written cell. -/
lemma get_set_same (i j : Int) (g : t_grid) (v : Char)
    (h : get_cell i j g = '_') (hv : v = '0' ∨ v = '1') :
    get_cell i j (set_cell i j g v) = v := by
  have hb := get_cell_bounds i j g (by rw [h]; decide)
  have he := get_cell_entry i j g '_' h (by decide)
  rw [set_cell_inb i j g v hb.1 hb.2.1 hb.2.2.1 hb.2.2.2 hv]
  exact get_set_same_aux i j g v hb.1 hb.2.1 hb.2.2.1 hb.2.2.2 he.1

/-- Writing one cell leaves every other cell unchanged. -/
lemma get_set_other (i j i2 j2 : Int) (g : t_grid) (v : Char)
    (hne : ¬(i2 = i ∧ j2 = j)) :
    get_cell i2 j2 (set_cell i j g v) = get_cell i2 j2 g := by
  by_cases hb : i < 0 ∨ (g.size : Int) ≤ i ∨ j < 0 ∨ (g.size : Int) ≤ j
  · rw [set_cell_oob i j g v hb]
  by_cases hv : v = '0' ∨ v = '1'
  · push_neg at hb
    rw [set_cell_inb i j g v (by omega) (by omega) (by omega) (by omega) hv]
    by_cases hb2 : i2 < 0 ∨ (g.size : Int) ≤ i2 ∨ j2 < 0 ∨ (g.size : Int) ≤ j2
    · rw [get_cell_oob, get_cell_oob i2 j2 g hb2]
      exact hb2
    · push_neg at hb2
      have e2 : i2 < (({ g with grid := g.grid.set (cellIdx g i j) v } : t_grid).size : Int) := by
        exact hb2.2.1
      have e4 : j2 < (({ g with grid := g.grid.set (cellIdx g i j) v } : t_grid).size : Int) := by
        exact hb2.2.2.2
      rw [get_cell_inb i2 j2 _ hb2.1 e2 hb2.2.2.1 e4]
      rw [get_cell_inb i2 j2 g hb2.1 hb2.2.1 hb2.2.2.1 hb2.2.2.2]
      show (g.grid.set (cellIdx g i j) v).getD (cellIdx g i2 j2) ' ' = g.grid.getD (cellIdx g i2 j2) ' '
      have hidx : cellIdx g i j ≠ cellIdx g i2 j2 := by
        intro hcontra
        rcases cellIdx_inj g i j i2 j2 (by omega) (by omega) (by omega) (by omega)
          hb2.1 hb2.2.1 hb2.2.2.1 hb2.2.2.2 hcontra with ⟨e1, e2⟩
        exact hne ⟨e1.symm, e2.symm⟩
      rw [List.getD_eq_getElem?_getD, List.getD_eq_getElem?_getD,
        List.getElem?_set_ne hidx]
  · push_neg at hv
    rw [set_cell_invalid i j g v hv.1 hv.2]

/-- Writing a non-'_' value over a cell that reads '_' strictly lowers
the number of '_' entries of the buffer. -/
lemma count_set_lt (l : List Char) (n : Nat) (v : Char)
    (h : l[n]? = some '_') (hv : v ≠ '_') :
    (l.set n v).count '_' < l.count '_' := by
  induction l generalizing n with
  | nil => simp at h
  | cons c t ih =>
    cases n with
    | zero =>
      simp at h
      subst h
      simp [List.count_cons, hv]
    | succ m =>
      simp at h
      have := ih m h
      simp only [List.set_cons_succ, List.count_cons]
      omega

lemma emptyCount_set_lt (i j : Int) (g : t_grid) (v : Char)
    (h : get_cell i j g = '_') (hv : v = '0' ∨ v = '1') :
    emptyCount (set_cell i j g v) < emptyCount g := by
  have hb := get_cell_bounds i j g (by rw [h]; decide)
  have he := get_cell_entry i j g '_' h (by decide)
  rw [set_cell_inb i j g v hb.1 hb.2.1 hb.2.2.1 hb.2.2.2 hv]
  unfold emptyCount
  exact count_set_lt g.grid (cellIdx g i j) v he.2 (by rcases hv with hv | hv <;> simp [hv])

/-! ### The monotone-write framework shared by all heuristics -/

/-- g2 keeps the size of g and the value of every non-'_' cell of g. -/
def Preserves (g g2 : t_grid) : Prop :=
  g2.size = g.size ∧ ∀ i j : Int, get_cell i j g ≠ '_' → get_cell i j g2 = get_cell i j g

lemma preserves_rfl (g : t_grid) : Preserves g g := ⟨Eq.refl _, fun _ _ _ => Eq.refl _⟩

lemma preserves_trans {g1 g2 g3 : t_grid}
    (h12 : Preserves g1 g2) (h23 : Preserves g2 g3) : Preserves g1 g3 := by
  refine ⟨h23.1.trans h12.1, fun i j h => ?_⟩
  rw [h23.2 i j (by rw [h12.2 i j h]; exact h), h12.2 i j h]

/-- One or more monotone writes happened: non-'_' cells kept their value
and the number of '_' cells strictly decreased. -/
def Progress (g g2 : t_grid) : Prop :=
  Preserves g g2 ∧ emptyCount g2 < emptyCount g

lemma progress_trans {g1 g2 g3 : t_grid}
    (h12 : Progress g1 g2) (h23 : Progress g2 g3) : Progress g1 g3 :=
  ⟨preserves_trans h12.1 h23.1, lt_trans h23.2 h12.2⟩

lemma progress_set (i j : Int) (g : t_grid) (v : Char)
    (h : get_cell i j g = '_') (hv : v = '0' ∨ v = '1') :
    Progress g (set_cell i j g v) := by
  refine ⟨⟨set_cell_size i j g v, fun i2 j2 h2 => ?_⟩, emptyCount_set_lt i j g v h hv⟩
  apply get_set_other
  rintro ⟨e1, e2⟩
  rw [e1, e2] at h2
  exact h2 h

/-- The one-step contract of every heuristic loop body: leave the state
alone, or raise the flag and make progress. -/
def StepOut (s t : t_grid × Bool) : Prop :=
  t = s ∨ (t.2 = true ∧ Progress s.1 t.1)

lemma stepOut_rfl (s : t_grid × Bool) : StepOut s s := Or.inl (Eq.refl _)

lemma stepOut_trans {s t u : t_grid × Bool}
    (h1 : StepOut s t) (h2 : StepOut t u) : StepOut s u := by
  rcases h1 with h1 | h1
  · subst h1
    exact h2
  · rcases h2 with h2 | h2
    · rw [h2]
      exact Or.inr h1
    · exact Or.inr ⟨h2.1, progress_trans h1.2 h2.2⟩

lemma try_fill_spec (row col : Int) (v : Char) (extra : Bool) (s : t_grid × Bool)
    (hv : v = '0' ∨ v = '1') : StepOut s (try_fill row col v extra s) := by
  unfold try_fill
  split
  · rename_i hcond
    simp only [Bool.and_eq_true, beq_iff_eq] at hcond
    exact Or.inr ⟨Eq.refl _, progress_set row col s.1 v hcond.2 hv⟩
  · exact Or.inl (Eq.refl _)

/-- Folding a list of StepOut bodies yields StepOut. -/
lemma foldl_stepOut {β : Type} (body : t_grid × Bool → β → t_grid × Bool) (l : List β)
    (hb : ∀ x ∈ l, ∀ s, StepOut s (body s x)) (s : t_grid × Bool) :
    StepOut s (l.foldl body s) := by
  induction l generalizing s with
  | nil => exact stepOut_rfl s
  | cons x t ih =>
    have h1 := hb x (List.mem_cons_self x t) s
    have h2 := ih (fun y hy s2 => hb y (List.mem_cons_of_mem x hy) s2) (body s x)
    rw [List.foldl_cons]
    exact stepOut_trans h1 h2

/-- A guarded branch doing two try_fill writes of the same valid value
satisfies the step contract. -/
lemma stepOut_pair_branch (r1 c1 r2 c2 : Int) (v : Char) (hv : v = '0' ∨ v = '1')
    (e1 : Bool) (e2 : t_grid × Bool → Bool) (c : Bool) (s : t_grid × Bool) :
    StepOut s
      (if c then
        try_fill r2 c2 v (e2 (try_fill r1 c1 v e1 s)) (try_fill r1 c1 v e1 s)
      else s) := by
  split
  · exact stepOut_trans (try_fill_spec r1 c1 v e1 s hv) (try_fill_spec r2 c2 v _ _ hv)
  · exact stepOut_rfl s

lemma consec_rows_body_spec (row col : Int) (s : t_grid × Bool) :
    StepOut s (consec_rows_body row col s) := by
  unfold consec_rows_body
  exact stepOut_trans
    (stepOut_pair_branch row (col + 2) row (col - 1) '1' (Or.inr (Eq.refl _))
      (decide (col + 2 < (s.1.size : Int)))
      (fun a => decide ((a.1.size : Int) ≤ col + 2) && decide (0 ≤ col - 1)) _ s)
    (stepOut_pair_branch row (col + 2) row (col - 1) '0' (Or.inl (Eq.refl _))
      _ (fun a => decide ((a.1.size : Int) ≤ col + 2) && decide (0 ≤ col - 1)) _ _)

lemma consec_cols_body_spec (col row : Int) (s : t_grid × Bool) :
    StepOut s (consec_cols_body col row s) := by
  unfold consec_cols_body
  exact stepOut_trans
    (stepOut_pair_branch (row + 2) col (row - 1) col '1' (Or.inr (Eq.refl _))
      true (fun _ => true) _ s)
    (stepOut_pair_branch (row + 2) col (row - 1) col '0' (Or.inl (Eq.refl _))
      true (fun _ => true) _ _)

/-- One half of the middle-pattern body: a sandwich test around a
center cell that is only written while it reads '_'. -/
lemma middle_part_spec (ci cj n1i n1j n2i n2j : Int)
    (hne1 : ¬(n1i = ci ∧ n1j = cj)) (hne2 : ¬(n2i = ci ∧ n2j = cj)) (s : t_grid × Bool) :
    StepOut s
      (if get_cell ci cj s.1 == '_' then
        (let a :=
          if get_cell n1i n1j s.1 == '0' && get_cell n2i n2j s.1 == '0' then
            (set_cell ci cj s.1 '1', true)
          else s
        if get_cell n1i n1j a.1 == '1' && get_cell n2i n2j a.1 == '1' then
          (set_cell ci cj a.1 '0', true)
        else a)
      else s) := by
  split
  · rename_i hc
    simp only [beq_iff_eq] at hc
    dsimp only
    split
    · rename_i h0
      simp only [Bool.and_eq_true, beq_iff_eq] at h0
      split
      · rename_i h1
        simp only [Bool.and_eq_true, beq_iff_eq] at h1
        rw [get_set_other ci cj n1i n1j s.1 '1' hne1] at h1
        rw [h0.1] at h1
        exact absurd h1.1 (by decide)
      · exact Or.inr ⟨Eq.refl _, progress_set ci cj s.1 '1' hc (Or.inr (Eq.refl _))⟩
    · split
      · exact Or.inr ⟨Eq.refl _, progress_set ci cj s.1 '0' hc (Or.inl (Eq.refl _))⟩
      · exact stepOut_rfl s
  · exact stepOut_rfl s

lemma middle_body_spec (i j : Int) (s : t_grid × Bool) :
    StepOut s (middle_body i j s) := by
  unfold middle_body
  exact stepOut_trans
    (middle_part_spec i j i (j - 1) i (j + 1) (by intro h; omega) (by intro h; omega) s)
    (middle_part_spec j i (j - 1) i (j + 1) i (by intro h; omega) (by intro h; omega) _)

lemma sat_fill_row_spec (row : Int) (v : Char) (hv : v = '0' ∨ v = '1') (s : t_grid × Bool) :
    StepOut s (sat_fill_row row v s) := by
  unfold sat_fill_row
  exact foldl_stepOut _ _ (fun (x : Nat) _ s2 => try_fill_spec row (x : Int) v true s2 hv) s

lemma sat_fill_col_spec (col : Int) (v : Char) (hv : v = '0' ∨ v = '1') (s : t_grid × Bool) :
    StepOut s (sat_fill_col col v s) := by
  unfold sat_fill_col
  exact foldl_stepOut _ _ (fun (x : Nat) _ s2 => try_fill_spec (x : Int) col v true s2 hv) s

/-- The heuristic-level contract: starting from a lowered flag, the
heuristic reports no change and returns the grid unchanged, or reports a
change and has made progress. -/
def HSpec (h : t_grid → t_grid × Bool) : Prop :=
  ∀ g, StepOut (g, false) (h g)

lemma hspec_consec_rows : HSpec apply_consecutive_zeros_ones_rows := by
  intro g
  unfold apply_consecutive_zeros_ones_rows
  exact foldl_stepOut _ _
    (fun (row : Nat) _ s => foldl_stepOut _ _
      (fun (col : Nat) _ s2 => consec_rows_body_spec (row : Int) (col : Int) s2) s)
    (g, false)

lemma hspec_consec_cols : HSpec apply_consecutive_zeros_ones_columns := by
  intro g
  unfold apply_consecutive_zeros_ones_columns
  exact foldl_stepOut _ _
    (fun (col : Nat) _ s => foldl_stepOut _ _
      (fun (row : Nat) _ s2 => consec_cols_body_spec (col : Int) (row : Int) s2) s)
    (g, false)

lemma hspec_middle : HSpec middle_pattern_heuristic := by
  intro g
  unfold middle_pattern_heuristic
  exact foldl_stepOut _ _
    (fun (i : Nat) _ s => foldl_stepOut _ _
      (fun (j : Nat) _ s2 => middle_body_spec (i : Int) (j : Int) s2) s)
    (g, false)

lemma hspec_all_zeros_rows : HSpec apply_all_zeros_filled_rows := by
  intro g
  unfold apply_all_zeros_filled_rows
  refine foldl_stepOut _ _ (fun row _ s => ?_) (g, false)
  split
  · exact sat_fill_row_spec row '1' (Or.inr (Eq.refl _)) s
  · exact stepOut_rfl s

lemma hspec_all_zeros_cols : HSpec apply_all_zeros_filled_columns := by
  intro g
  unfold apply_all_zeros_filled_columns
  refine foldl_stepOut _ _ (fun col _ s => ?_) (g, false)
  split
  · exact sat_fill_col_spec col '1' (Or.inr (Eq.refl _)) s
  · exact stepOut_rfl s

lemma hspec_all_ones_rows : HSpec apply_all_ones_filled_rows := by
  intro g
  unfold apply_all_ones_filled_rows
  refine foldl_stepOut _ _ (fun row _ s => ?_) (g, false)
  split
  · exact sat_fill_row_spec row '0' (Or.inl (Eq.refl _)) s
  · exact stepOut_rfl s

lemma hspec_all_ones_cols : HSpec apply_all_ones_filled_columns := by
  intro g
  unfold apply_all_ones_filled_columns
  refine foldl_stepOut _ _ (fun col _ s => ?_) (g, false)
  split
  · exact sat_fill_col_spec col '0' (Or.inl (Eq.refl _)) s
  · exact stepOut_rfl s

lemma hspec_hcomp {h1 h2 : t_grid → t_grid × Bool}
    (s1 : HSpec h1) (s2 : HSpec h2) : HSpec (hcomp h1 h2) := by
  intro g
  unfold hcomp
  dsimp only
  rcases s1 g with e1 | ⟨f1, p1⟩
  · rw [e1]
    rcases s2 g with e2 | ⟨f2, p2⟩
    · rw [e2]
      exact Or.inl (Eq.refl _)
    · exact Or.inr ⟨by simp [f2], p2⟩
  · rcases s2 (h1 g).1 with e2 | ⟨f2, p2⟩
    · rw [e2]
      exact Or.inr ⟨by simp [f1], p1⟩
    · exact Or.inr ⟨by simp [f1], progress_trans p1 p2⟩

lemma hspec_pass : HSpec heuristics_pass := by
  unfold heuristics_pass
  exact hspec_hcomp hspec_all_zeros_rows
    (hspec_hcomp hspec_all_zeros_cols
      (hspec_hcomp hspec_all_ones_rows
        (hspec_hcomp hspec_all_ones_cols
          (hspec_hcomp hspec_consec_rows
            (hspec_hcomp hspec_consec_cols hspec_middle)))))

lemma heuristics_loop_succ (n : Nat) (g : t_grid) :
    heuristics_loop (n + 1) g =
      if (heuristics_pass g).2 then heuristics_loop n (heuristics_pass g).1
      else (heuristics_pass g).1 := by
  rfl

/-- With more fuel than '_' cells, the loop result is a fixpoint of the
heuristic pass. -/
lemma heuristics_loop_stable (fuel : Nat) (g : t_grid) (h : emptyCount g < fuel) :
    heuristics_pass (heuristics_loop fuel g) = (heuristics_loop fuel g, false) := by
  induction fuel generalizing g with
  | zero => exact absurd h (Nat.not_lt_zero _)
  | succ n ih =>
    rw [heuristics_loop_succ]
    rcases hspec_pass g with e | ⟨f, p⟩
    · rw [e]
      simpa using e
    · rw [f]
      simp only [if_true]
      refine ih (heuristics_pass g).1 ?_
      have h2 : emptyCount (heuristics_pass g).1 < emptyCount g := p.2
      omega

/-- The fixpoint loop never changes a non-'_' cell. -/
lemma heuristics_loop_preserves (fuel : Nat) (g : t_grid) :
    Preserves g (heuristics_loop fuel g) := by
  induction fuel generalizing g with
  | zero => exact preserves_rfl g
  | succ n ih =>
    rw [heuristics_loop_succ]
    rcases hspec_pass g with e | ⟨f, p⟩
    · rw [e]
      simpa using preserves_rfl g
    · rw [f]
      simp only [if_true]
      exact preserves_trans p.1 (ih (heuristics_pass g).1)

lemma until_stable_of_stable (g : t_grid) (h : heuristics_pass g = (g, false)) :
    apply_heuristics_until_stable g = g := by
  unfold apply_heuristics_until_stable
  split
  · rw [heuristics_loop_succ, h]
    simp
  · rfl

/-- C7.  Propagation to fixpoint is idempotent: applying
apply_heuristics_until_stable twice yields exactly the same grid
contents as applying it once, for every grid. -/
theorem c7_propagation_idempotent (g : t_grid) :
    apply_heuristics_until_stable (apply_heuristics_until_stable g) =
      apply_heuristics_until_stable g := by
  by_cases hc : is_consistent g
  · have h1 : apply_heuristics_until_stable g = heuristics_loop (emptyCount g + 1) g := by
      unfold apply_heuristics_until_stable
      rw [if_pos hc]
    rw [h1]
    exact until_stable_of_stable _ (heuristics_loop_stable _ g (by omega))
  · have h1 : apply_heuristics_until_stable g = g := by
      unfold apply_heuristics_until_stable
      rw [if_neg hc]
    rw [h1]
    exact h1

/-- C8.  Propagation is monotonic: a cell that is non-Empty before
apply_heuristics_until_stable runs has exactly the same value
afterwards. -/
theorem c8_propagation_monotonic (g : t_grid) (i j : Int)
    (h : get_cell i j g ≠ '_') :
    get_cell i j (apply_heuristics_until_stable g) = get_cell i j g := by
  unfold apply_heuristics_until_stable
  split
  · exact (heuristics_loop_preserves _ g).2 i j h
  · rfl

/-- Witness for C8 at a concrete grid and cell. -/
theorem c8_propagation_monotonic_witness :
    get_cell 0 0 { size := 4, grid :=
      ['0','0','_','_','_','_','_','_','_','_','_','_','_','_','_','_'] } ≠ '_' ∧
    get_cell 0 0 (apply_heuristics_until_stable { size := 4, grid :=
      ['0','0','_','_','_','_','_','_','_','_','_','_','_','_','_','_'] }) =
      get_cell 0 0 { size := 4, grid :=
      ['0','0','_','_','_','_','_','_','_','_','_','_','_','_','_','_'] } :=
  ⟨by decide, c8_propagation_monotonic _ 0 0 (by decide)⟩

lemma grid_solver_backtracking_zero (mode : mode_t) (g : t_grid) (cnt : Nat) :
    grid_solver_backtracking 0 mode g cnt = (none, g, cnt) := rfl

lemma grid_solver_backtracking_succ (n : Nat) (mode : mode_t) (g : t_grid) (cnt : Nat) :
    grid_solver_backtracking (n + 1) mode g cnt =
      grid_solver_backtracking_step (grid_solver_backtracking n) mode g cnt := rfl

lemma bt_restore_eq_some (r : Option t_grid × t_grid × Nat) (snap s g2 : t_grid) (c2 : Nat)
    (h : bt_restore r snap = (some s, g2, c2)) : r = (some s, g2, c2) := by
  rcases r with ⟨o, gg, cc⟩
  cases o with
  | none => simp [bt_restore] at h
  | some s2 => simpa [bt_restore] using h

lemma bt_restore_eq_none (r : Option t_grid × t_grid × Nat) (snap g2 : t_grid) (c2 : Nat)
    (h : bt_restore r snap = (none, g2, c2)) : g2 = snap := by
  rcases r with ⟨o, gg, cc⟩
  cases o with
  | none =>
    simp only [bt_restore, Prod.mk.injEq] at h
    exact h.2.1.symm
  | some s2 => simp [bt_restore] at h

/-- Every solution returned by the backtracking search is the final
working grid and satisfies is_valid (both success exits copy the
working grid right after a successful is_valid test). -/
lemma backtracking_some_valid (fuel : Nat) (mode : mode_t) :
    ∀ (g : t_grid) (cnt : Nat) (s g2 : t_grid) (c2 : Nat),
      grid_solver_backtracking fuel mode g cnt = (some s, g2, c2) →
      is_valid s = true ∧ s = g2 := by
  induction fuel with
  | zero =>
    intro g cnt s g2 c2 h
    rw [grid_solver_backtracking_zero] at h
    simp at h
  | succ n ih =>
    intro g cnt s g2 c2 h
    rw [grid_solver_backtracking_succ] at h
    unfold grid_solver_backtracking_step at h
    dsimp only at h
    repeat' split at h
    all_goals first
      | exact ih _ _ _ _ _ (bt_restore_eq_some _ _ _ _ _ h)
      | (simp only [Prod.mk.injEq, Option.some.injEq] at h
         obtain ⟨h1, h2, _⟩ := h
         subst h1
         exact ⟨by assumption, h2⟩)
      | simp at h

/-- C9.  Backtracking restores state on a failed branch: whenever a
backtracking call on a consistent grid returns without a solution, the
final working grid is exactly the snapshot taken at that decision
level, i.e. the grid after that level's propagation and before any
tentative assignment. -/
theorem c9_backtracking_restores (fuel : Nat) (mode : mode_t) (g : t_grid) (cnt : Nat)
    (g2 : t_grid) (c2 : Nat) (hf : 0 < fuel) (hc : is_consistent g = true)
    (h : grid_solver_backtracking fuel mode g cnt = (none, g2, c2)) :
    g2 = apply_heuristics_until_stable g := by
  obtain ⟨n, rfl⟩ : ∃ n, fuel = n + 1 := ⟨fuel - 1, by omega⟩
  rw [grid_solver_backtracking_succ] at h
  unfold grid_solver_backtracking_step at h
  dsimp only at h
  repeat' split at h
  all_goals first
    | exact bt_restore_eq_none _ _ _ _ h
    | exact (congrArg (fun p => p.2.1) h).symm
    | (simp at h; done)
    | simp_all

/-! ### Consequences of is_valid, used for solution soundness -/

lemma is_valid_cells (g : t_grid) (h : is_valid g = true) (i j : Nat)
    (hi : i < g.size) (hj : j < g.size) :
    get_cell i j g = '0' ∨ get_cell i j g = '1' := by
  unfold is_valid at h
  rw [Bool.and_eq_true] at h
  rw [List.all_eq_true] at h
  have h2 := h.2 i (List.mem_range.mpr hi)
  rw [List.all_eq_true] at h2
  have h3 := h2 j (List.mem_range.mpr hj)
  rcases Bool.or_eq_true _ _ |>.mp h3 with h4 | h4
  · exact Or.inl (by simpa using h4)
  · exact Or.inr (by simpa using h4)

lemma is_valid_consistent (g : t_grid) (h : is_valid g = true) :
    is_consistent g = true := by
  unfold is_valid at h
  rw [Bool.and_eq_true] at h
  exact h.1

lemma is_consistent_same (g : t_grid) (h : is_consistent g = true) :
    check_same_col_or_row g = true := by
  unfold is_consistent at h
  rw [Bool.and_eq_true, Bool.and_eq_true, Bool.and_eq_true] at h
  exact h.1.1.1

lemma is_consistent_counts (g : t_grid) (h : is_consistent g = true) :
    check_number_of_zeros_ones g = true := by
  unfold is_consistent at h
  rw [Bool.and_eq_true, Bool.and_eq_true, Bool.and_eq_true] at h
  exact h.1.1.2

lemma is_consistent_consec_row (g : t_grid) (h : is_consistent g = true)
    (i : Nat) (hi : i < g.size) : check_consecutive_zeros_ones i g true = true := by
  unfold is_consistent at h
  rw [Bool.and_eq_true, Bool.and_eq_true, Bool.and_eq_true] at h
  have := h.1.2
  rw [List.all_eq_true] at this
  exact this i (List.mem_range.mpr hi)

lemma is_consistent_consec_col (g : t_grid) (h : is_consistent g = true)
    (j : Nat) (hj : j < g.size) : check_consecutive_zeros_ones j g false = true := by
  unfold is_consistent at h
  rw [Bool.and_eq_true, Bool.and_eq_true, Bool.and_eq_true] at h
  have := h.2
  rw [List.all_eq_true] at this
  exact this j (List.mem_range.mpr hj)

lemma check_counts_row (g : t_grid) (h : check_number_of_zeros_ones g = true)
    (i : Nat) (hi : i < g.size) :
    count_in_row g i '0' ≤ g.size / 2 ∧ count_in_row g i '1' ≤ g.size / 2 := by
  unfold check_number_of_zeros_ones at h
  rw [Bool.and_eq_true] at h
  have h2 := h.1
  rw [List.all_eq_true] at h2
  have h3 := h2 i (List.mem_range.mpr hi)
  simp only [Bool.not_eq_eq_eq_not, Bool.not_true, Bool.or_eq_false_iff,
    decide_eq_false_iff_not, Nat.not_lt] at h3
  exact h3

lemma check_counts_col (g : t_grid) (h : check_number_of_zeros_ones g = true)
    (j : Nat) (hj : j < g.size) :
    count_in_col g j '0' ≤ g.size / 2 ∧ count_in_col g j '1' ≤ g.size / 2 := by
  unfold check_number_of_zeros_ones at h
  rw [Bool.and_eq_true] at h
  have h2 := h.2
  rw [List.all_eq_true] at h2
  have h3 := h2 j (List.mem_range.mpr hj)
  simp only [Bool.not_eq_eq_eq_not, Bool.not_true, Bool.or_eq_false_iff,
    decide_eq_false_iff_not, Nat.not_lt] at h3
  exact h3

/-- Counting two pointwise exclusive and exhaustive predicates over a
list yields its length. -/
lemma countP_add_countP_of_split {l : List Nat} {p q : Nat → Bool}
    (h : ∀ a ∈ l, (p a = true ∧ q a = false) ∨ (p a = false ∧ q a = true)) :
    l.countP p + l.countP q = l.length := by
  induction l with
  | nil => simp
  | cons a t ih =>
    have ha := h a (List.mem_cons_self a t)
    have ht := ih fun b hb => h b (List.mem_cons_of_mem _ hb)
    rcases ha with ⟨h1, h2⟩ | ⟨h1, h2⟩ <;>
      simp [List.countP_cons, h1, h2] <;> omega

/-- In a fully assigned row the two symbol counts sum to the size. -/
lemma row_count_sum (g : t_grid) (h : is_valid g = true) (i : Nat) (hi : i < g.size) :
    count_in_row g i '0' + count_in_row g i '1' = g.size := by
  unfold count_in_row
  rw [countP_add_countP_of_split, List.length_range]
  intro col hcol
  rcases is_valid_cells g h i col hi (List.mem_range.mp hcol) with hc | hc <;>
    simp [hc]

lemma col_count_sum (g : t_grid) (h : is_valid g = true) (j : Nat) (hj : j < g.size) :
    count_in_col g j '0' + count_in_col g j '1' = g.size := by
  unfold count_in_col
  rw [countP_add_countP_of_split, List.length_range]
  intro row hrow
  rcases is_valid_cells g h row j (List.mem_range.mp hrow) hj with hc | hc <;>
    simp [hc]

lemma consec_scan_three_zeros (t : List Char) (cz co : Nat) :
    consec_scan ('0' :: '0' :: '0' :: t) cz co = false := by
  show (if 2 < cz + 1 || 2 < 0 then false
    else consec_scan ('0' :: '0' :: t) (cz + 1) 0) = false
  split
  · rfl
  · show (if 2 < cz + 1 + 1 || 2 < 0 then false
      else consec_scan ('0' :: t) (cz + 1 + 1) 0) = false
    split
    · rfl
    · show (if 2 < cz + 1 + 1 + 1 || 2 < 0 then false
        else consec_scan t (cz + 1 + 1 + 1) 0) = false
      rw [if_pos]
      simp only [Bool.or_eq_true, decide_eq_true_eq]
      omega

lemma consec_scan_three_ones (t : List Char) (cz co : Nat) :
    consec_scan ('1' :: '1' :: '1' :: t) cz co = false := by
  show (if 2 < 0 || 2 < co + 1 then false
    else consec_scan ('1' :: '1' :: t) 0 (co + 1)) = false
  split
  · rfl
  · show (if 2 < 0 || 2 < co + 1 + 1 then false
      else consec_scan ('1' :: t) 0 (co + 1 + 1)) = false
    split
    · rfl
    · show (if 2 < 0 || 2 < co + 1 + 1 + 1 then false
        else consec_scan t 0 (co + 1 + 1 + 1)) = false
      rw [if_pos]
      simp only [Bool.or_eq_true, decide_eq_true_eq]
      omega

/-- A scan that accepts has no window of three equal '0' or '1' cells. -/
lemma consec_scan_no_triple (l : List Char) :
    ∀ (k cz co : Nat) (v : Char), v = '0' ∨ v = '1' →
      l.getD k ' ' = v → l.getD (k + 1) ' ' = v → l.getD (k + 2) ' ' = v →
      k + 2 < l.length → consec_scan l cz co = false := by
  induction l with
  | nil =>
    intro k cz co v _ _ _ _ hk
    simp at hk
  | cons c t ih =>
    intro k cz co v hv h0 h1 h2 hk
    cases k with
    | zero =>
      simp only [List.getD_cons_zero, List.getD_cons_succ] at h0 h1 h2
      subst h0
      match t, h1, h2, hk with
      | a :: b :: t2, h1, h2, _ =>
        simp only [List.getD_cons_zero, List.getD_cons_succ] at h1 h2
        subst h1
        subst h2
        rcases hv with rfl | rfl
        · exact consec_scan_three_zeros t2 cz co
        · exact consec_scan_three_ones t2 cz co
    | succ m =>
      simp only [List.getD_cons_succ] at h0 h1 h2
      show (if 2 < (if c == '0' then cz + 1 else 0) ||
          2 < (if c == '1' then co + 1 else 0) then false
        else consec_scan t (if c == '0' then cz + 1 else 0)
          (if c == '1' then co + 1 else 0)) = false
      generalize (if c == '0' then cz + 1 else 0) = cz2
      generalize (if c == '1' then co + 1 else 0) = co2
      split
      · rfl
      · exact ih m cz2 co2 v hv h0 h1 h2
          (by simp only [List.length_cons] at hk; omega)

lemma line_cells_getD (g : t_grid) (index : Int) (b : Bool) (k : Nat)
    (hk : k < g.size) :
    (line_cells g index b).getD k ' ' =
      if b then get_cell index k g else get_cell k index g := by
  unfold line_cells
  rw [List.getD_eq_getElem?_getD, List.getElem?_map, List.getElem?_range hk]
  rfl

lemma line_cells_length (g : t_grid) (index : Int) (b : Bool) :
    (line_cells g index b).length = g.size := by
  unfold line_cells
  rw [List.length_map, List.length_range]

/-- An accepted row scan rules out three equal consecutive assigned
cells in that row. -/
lemma no_row_triple (g : t_grid) (i : Nat)
    (hscan : check_consecutive_zeros_ones i g true = true)
    (k : Nat) (hk : k + 2 < g.size) (v : Char) (hv : v = '0' ∨ v = '1')
    (e0 : get_cell i k g = v) (e1 : get_cell i (k + 1) g = v)
    (e2 : get_cell i (k + 2) g = v) : False := by
  unfold check_consecutive_zeros_ones at hscan
  have := consec_scan_no_triple (line_cells g i true) k 0 0 v hv
    (by rw [line_cells_getD g i true k (by omega)]; simpa using e0)
    (by rw [line_cells_getD g i true (k + 1) (by omega)]; simpa using e1)
    (by rw [line_cells_getD g i true (k + 2) (by omega)]; simpa using e2)
    (by rw [line_cells_length]; omega)
  rw [this] at hscan
  exact absurd hscan (by decide)

lemma no_col_triple (g : t_grid) (j : Nat)
    (hscan : check_consecutive_zeros_ones j g false = true)
    (k : Nat) (hk : k + 2 < g.size) (v : Char) (hv : v = '0' ∨ v = '1')
    (e0 : get_cell k j g = v) (e1 : get_cell (k + 1) j g = v)
    (e2 : get_cell (k + 2) j g = v) : False := by
  unfold check_consecutive_zeros_ones at hscan
  have := consec_scan_no_triple (line_cells g j false) k 0 0 v hv
    (by rw [line_cells_getD g j false k (by omega)]; simpa using e0)
    (by rw [line_cells_getD g j false (k + 1) (by omega)]; simpa using e1)
    (by rw [line_cells_getD g j false (k + 2) (by omega)]; simpa using e2)
    (by rw [line_cells_length]; omega)
  rw [this] at hscan
  exact absurd hscan (by decide)

/-- A valid grid has pairwise distinct rows. -/
lemma valid_distinct_rows (g : t_grid) (h : is_valid g = true) (r1 r2 : Nat)
    (h12 : r1 < r2) (hr2 : r2 < g.size) :
    ∃ c : Nat, c < g.size ∧ get_cell r1 c g ≠ get_cell r2 c g := by
  have hsame := is_consistent_same g (is_valid_consistent g h)
  unfold check_same_col_or_row at hsame
  rw [Bool.and_eq_true] at hsame
  have ha := hsame.1
  rw [List.all_eq_true] at ha
  have hb := ha r1 (List.mem_range.mpr (by omega))
  rw [List.all_eq_true] at hb
  have hc := hb r2 (List.mem_range.mpr hr2)
  rw [Bool.not_eq_eq_eq_not, Bool.not_true, Bool.and_eq_false_iff] at hc
  rcases hc with hc | hc
  · rw [decide_eq_false_iff_not] at hc
    exact absurd h12 hc
  · unfold are_rows_identical at hc
    rw [List.all_eq_false] at hc
    obtain ⟨c, hcmem, hcp⟩ := hc
    refine ⟨c, List.mem_range.mp hcmem, ?_⟩
    rw [Bool.and_eq_true, Bool.not_eq_eq_eq_not, Bool.not_true] at hcp
    push_neg at hcp
    intro heq
    rcases is_valid_cells g h r1 c (by omega) (List.mem_range.mp hcmem) with h01 | h01
    · have := hcp (by rw [beq_iff_eq]; exact heq)
      rw [h01] at this
      simp at this
    · have := hcp (by rw [beq_iff_eq]; exact heq)
      rw [h01] at this
      simp at this

/-- A valid grid has pairwise distinct columns. -/
lemma valid_distinct_cols (g : t_grid) (h : is_valid g = true) (c1 c2 : Nat)
    (h12 : c1 < c2) (hc2 : c2 < g.size) :
    ∃ r : Nat, r < g.size ∧ get_cell r c1 g ≠ get_cell r c2 g := by
  have hsame := is_consistent_same g (is_valid_consistent g h)
  unfold check_same_col_or_row at hsame
  rw [Bool.and_eq_true] at hsame
  have ha := hsame.2
  rw [List.all_eq_true] at ha
  have hb := ha c1 (List.mem_range.mpr (by omega))
  rw [List.all_eq_true] at hb
  have hc := hb c2 (List.mem_range.mpr hc2)
  rw [Bool.not_eq_eq_eq_not, Bool.not_true, Bool.and_eq_false_iff] at hc
  rcases hc with hc | hc
  · rw [decide_eq_false_iff_not] at hc
    exact absurd h12 hc
  · unfold are_columns_identical at hc
    rw [List.all_eq_false] at hc
    obtain ⟨r, hrmem, hrp⟩ := hc
    refine ⟨r, List.mem_range.mp hrmem, ?_⟩
    rw [Bool.and_eq_true, Bool.not_eq_eq_eq_not, Bool.not_true] at hrp
    push_neg at hrp
    intro heq
    rcases is_valid_cells g h r c1 (List.mem_range.mp hrmem) (by omega) with h01 | h01
    · have := hrp (by rw [beq_iff_eq]; exact heq)
      rw [h01] at this
      simp at this
    · have := hrp (by rw [beq_iff_eq]; exact heq)
      rw [h01] at this
      simp at this

/-- C6.  Soundness of the backtracking search: every Solution grid it
returns (for any input grid, any mode and any fuel) has no Empty cell,
exactly size / 2 '0' cells and size / 2 '1' cells in every row and
column, no three consecutive equal cells in any row or column, and
pairwise distinct rows and pairwise distinct columns. -/
theorem c6_solver_solution_sound (fuel : Nat) (mode : mode_t) (g : t_grid)
    (cnt : Nat) (s g2 : t_grid) (c2 : Nat)
    (h : grid_solver_backtracking fuel mode g cnt = (some s, g2, c2)) :
    (∀ i j : Nat, i < s.size → j < s.size →
      get_cell i j s = '0' ∨ get_cell i j s = '1') ∧
    (∀ i : Nat, i < s.size →
      count_in_row s i '0' = s.size / 2 ∧ count_in_row s i '1' = s.size / 2) ∧
    (∀ j : Nat, j < s.size →
      count_in_col s j '0' = s.size / 2 ∧ count_in_col s j '1' = s.size / 2) ∧
    (∀ i k : Nat, i < s.size → k + 2 < s.size →
      ¬(get_cell i k s = get_cell i (k + 1) s ∧
        get_cell i (k + 1) s = get_cell i (k + 2) s)) ∧
    (∀ j k : Nat, j < s.size → k + 2 < s.size →
      ¬(get_cell k j s = get_cell (k + 1) j s ∧
        get_cell (k + 1) j s = get_cell (k + 2) j s)) ∧
    (∀ r1 r2 : Nat, r1 < r2 → r2 < s.size →
      ∃ c : Nat, c < s.size ∧ get_cell r1 c s ≠ get_cell r2 c s) ∧
    (∀ c1 c2 : Nat, c1 < c2 → c2 < s.size →
      ∃ r : Nat, r < s.size ∧ get_cell r c1 s ≠ get_cell r c2 s) := by
  have hv := (backtracking_some_valid fuel mode g cnt s g2 c2 h).1
  have hcons := is_valid_consistent s hv
  refine ⟨fun i j hi hj => is_valid_cells s hv i j hi hj, fun i hi => ?_, fun j hj => ?_,
    fun i k hi hk => ?_, fun j k hj hk => ?_,
    fun r1 r2 h12 hr2 => valid_distinct_rows s hv r1 r2 h12 hr2,
    fun c1 c2 h12 hc2 => valid_distinct_cols s hv c1 c2 h12 hc2⟩
  · have hb := check_counts_row s (is_consistent_counts s hcons) i hi
    have hs := row_count_sum s hv i hi
    omega
  · have hb := check_counts_col s (is_consistent_counts s hcons) j hj
    have hs := col_count_sum s hv j hj
    omega
  · rintro ⟨e1, e2⟩
    rcases is_valid_cells s hv i k hi (by omega) with h01 | h01
    · exact no_row_triple s i (is_consistent_consec_row s hcons i hi) k hk '0'
        (Or.inl rfl) h01 (by rw [← e1]; exact h01) (by rw [← e2, ← e1]; exact h01)
    · exact no_row_triple s i (is_consistent_consec_row s hcons i hi) k hk '1'
        (Or.inr rfl) h01 (by rw [← e1]; exact h01) (by rw [← e2, ← e1]; exact h01)
  · rintro ⟨e1, e2⟩
    rcases is_valid_cells s hv k j (by omega) hj with h01 | h01
    · exact no_col_triple s j (is_consistent_consec_col s hcons j hj) k hk '0'
        (Or.inl rfl) h01 (by rw [← e1]; exact h01) (by rw [← e2, ← e1]; exact h01)
    · exact no_col_triple s j (is_consistent_consec_col s hcons j hj) k hk '1'
        (Or.inr rfl) h01 (by rw [← e1]; exact h01) (by rw [← e2, ← e1]; exact h01)

/-- A concrete fully solved 4-by-4 grid used by the witnesses. -/
def exampleValidGrid : t_grid :=
  { size := 4, grid :=
    ['0','1','1','0','1','0','0','1','0','1','0','1','1','0','1','0'] }

/-- Witness for C6: the soundness properties hold for the solution the
search returns on a concrete already-solved grid. -/
theorem c6_solver_solution_sound_witness :
    (∀ i j : Nat, i < exampleValidGrid.size → j < exampleValidGrid.size →
      get_cell i j exampleValidGrid = '0' ∨ get_cell i j exampleValidGrid = '1') ∧
    (∀ i : Nat, i < exampleValidGrid.size →
      count_in_row exampleValidGrid i '0' = exampleValidGrid.size / 2 ∧
      count_in_row exampleValidGrid i '1' = exampleValidGrid.size / 2) ∧
    (∀ j : Nat, j < exampleValidGrid.size →
      count_in_col exampleValidGrid j '0' = exampleValidGrid.size / 2 ∧
      count_in_col exampleValidGrid j '1' = exampleValidGrid.size / 2) ∧
    (∀ i k : Nat, i < exampleValidGrid.size → k + 2 < exampleValidGrid.size →
      ¬(get_cell i k exampleValidGrid = get_cell i (k + 1) exampleValidGrid ∧
        get_cell i (k + 1) exampleValidGrid = get_cell i (k + 2) exampleValidGrid)) ∧
    (∀ j k : Nat, j < exampleValidGrid.size → k + 2 < exampleValidGrid.size →
      ¬(get_cell k j exampleValidGrid = get_cell (k + 1) j exampleValidGrid ∧
        get_cell (k + 1) j exampleValidGrid = get_cell (k + 2) j exampleValidGrid)) ∧
    (∀ r1 r2 : Nat, r1 < r2 → r2 < exampleValidGrid.size →
      ∃ c : Nat, c < exampleValidGrid.size ∧
        get_cell r1 c exampleValidGrid ≠ get_cell r2 c exampleValidGrid) ∧
    (∀ c1 c2 : Nat, c1 < c2 → c2 < exampleValidGrid.size →
      ∃ r : Nat, r < exampleValidGrid.size ∧
        get_cell r c1 exampleValidGrid ≠ get_cell r c2 exampleValidGrid) :=
  c6_solver_solution_sound 1 mode_t.first exampleValidGrid 0
    exampleValidGrid exampleValidGrid 1 (by decide)

set_option maxRecDepth 4000 in
/-- Witness for C9: a concrete consistent but unsolvable grid on which
the search fails and returns the grid in exactly its post-propagation
state. -/
theorem c9_backtracking_restores_witness :
    ({ size := 4, grid :=
      ['0','1','1','0','1','0','0','1','0','1','1','0','1','0','0','1'] } : t_grid) =
      apply_heuristics_until_stable { size := 4, grid :=
      ['0','1','1','0','_','_','_','_','0','1','1','_','_','_','_','_'] } :=
  c9_backtracking_restores 1 mode_t.first
    { size := 4, grid :=
      ['0','1','1','0','_','_','_','_','0','1','1','_','_','_','_','_'] } 0
    { size := 4, grid :=
      ['0','1','1','0','1','0','0','1','0','1','1','0','1','0','0','1'] } 0
    (by decide) (by decide) (by decide)

/-- On an already valid grid the backtracking solver immediately
returns a copy of it, increments the count and leaves the working grid
untouched. -/
lemma backtracking_of_valid (fuel : Nat) (mode : mode_t) (g : t_grid) (cnt : Nat)
    (hv : is_valid g = true) :
    grid_solver_backtracking (fuel + 1) mode g cnt = (some g, g, cnt + 1) := by
  rw [grid_solver_backtracking_succ]
  unfold grid_solver_backtracking_step
  rw [if_pos hv]

/-- The while (1) loop of find_all_solutions never exits once the
working grid is a valid solution: every iteration re-reports the same
grid and increments solution_count. -/
lemma find_all_loop_diverges (mode : mode_t) (g : t_grid) (hv : is_valid g = true) :
    ∀ (n cnt : Nat) (sols : List t_grid),
      find_all_loop mode n g cnt sols =
        (g, cnt + n, sols ++ List.replicate n g, false) := by
  intro n
  induction n with
  | zero =>
    intro cnt sols
    simp [find_all_loop]
  | succ m ih =>
    intro cnt sols
    have hrun : grid_solver_backtracking_run mode g cnt = (some g, g, cnt + 1) := by
      unfold grid_solver_backtracking_run
      exact backtracking_of_valid (emptyCount g) mode g cnt hv
    simp only [find_all_loop, hrun]
    rw [ih (cnt + 1) (sols ++ [g])]
    have h1 : cnt + 1 + m = cnt + (m + 1) := by omega
    have h2 : sols ++ [g] ++ List.replicate m g = sols ++ List.replicate (m + 1) g := by
      rw [List.append_assoc, List.replicate_succ, List.singleton_append]
    rw [h1, h2]

/-- The first solved grid the search reaches from the empty 4-by-4
grid. -/
def emptyGridFirstSolution : t_grid :=
  { size := 4, grid :=
    ['0','0','1','1','0','1','0','1','1','0','1','0','1','1','0','0'] }

set_option maxRecDepth 100000 in
/-- C1 (code defect evidence).  On the entirely empty 4-by-4 grid the
first backtracking call of ALL mode succeeds and leaves the working
grid fully solved; from any such valid working grid the enumeration
loop of find_all_solutions runs forever, re-collecting the same
solution and growing solution_count without bound, so it never
terminates with exactly 2 solutions. -/
theorem c1_find_all_mode_diverges :
    (grid_solver_backtracking_run mode_t.all (grid_allocate 4) 0 =
        (some emptyGridFirstSolution, emptyGridFirstSolution, 1) ∧
      is_valid emptyGridFirstSolution = true) ∧
    ∀ g : t_grid, is_valid g = true → ∀ (n cnt : Nat) (sols : List t_grid),
      find_all_loop mode_t.all n g cnt sols =
        (g, cnt + n, sols ++ List.replicate n g, false) :=
  ⟨⟨by decide, by decide⟩, fun g hv => find_all_loop_diverges mode_t.all g hv⟩

/-- Witness for C1: five loop iterations from a concrete valid grid
produce count 5 and no exit. -/
theorem c1_find_all_mode_diverges_witness :
    find_all_loop mode_t.all 5 exampleValidGrid 0 [] =
      (exampleValidGrid, 0 + 5, [] ++ List.replicate 5 exampleValidGrid, false) :=
  c1_find_all_mode_diverges.2 exampleValidGrid (by decide) 5 0 []

/-- C2 (code defect evidence).  The ALL-mode solution store of
find_all_solutions is pre-sized to a fixed capacity equal to the
largest representable int value: grid.c line 1282 declares
t_grid* solutions[INT_MAX], independent of the grid or of how many
solutions exist.  It is not a growable sequence. -/
theorem c2_solutions_capacity_fixed :
    find_all_solutions_capacity = int_max ∧
    find_all_solutions_capacity = 2 ^ 31 - 1 := by
  constructor
  · rfl
  · decide

/-- C10.  Cell access at the public interface is total and
bounds-safe: out-of-range coordinates make get_cell return ' ' and
set_cell return the grid unchanged, and set_cell with a value other
than '0' and '1' returns the grid unchanged even in bounds. -/
theorem c10_cell_access_total (g : t_grid) (i j : Int) (v : Char) :
    ((i < 0 ∨ (g.size : Int) ≤ i ∨ j < 0 ∨ (g.size : Int) ≤ j) →
      get_cell i j g = ' ' ∧ set_cell i j g v = g) ∧
    (v ≠ '0' → v ≠ '1' → set_cell i j g v = g) := by
  constructor
  · intro h
    exact ⟨get_cell_oob i j g h, set_cell_oob i j g v h⟩
  · exact set_cell_invalid i j g v

/-- Witness for C10 at concrete out-of-range coordinates and at a
concrete invalid value. -/
theorem c10_cell_access_total_witness :
    (get_cell (-1) 0 exampleValidGrid = ' ' ∧
      set_cell (-1) 0 exampleValidGrid '1' = exampleValidGrid) ∧
    set_cell 0 1 exampleValidGrid '_' = exampleValidGrid :=
  ⟨(c10_cell_access_total exampleValidGrid (-1) 0 '1').1 (Or.inl (by decide)),
    (c10_cell_access_total exampleValidGrid 0 1 '_').2 (by decide) (by decide)⟩

/-- grid_free of takuzu.c: free(g->grid) and set the pointer to NULL;
modelled as a grid whose cell buffer is gone. -/
def grid_free (g : t_grid) : t_grid := { g with grid := [] }

/-- grid.c place_cell_strategically, drawing the tie-breaking rand()
call from the stream at index k.  Returns the chosen character and the
next stream index. -/
def place_cell_strategically (g : t_grid) (row col : Int) (rng : Nat → Nat) (k : Nat) :
    Char × Nat :=
  let is_zero_consistent := check_consistency_after_placement g row col '0'
  let is_one_consistent := check_consistency_after_placement g row col '1'
  if !is_zero_consistent && !is_one_consistent then ('_', k)
  else if is_zero_consistent && is_one_consistent then
    (if rng k % 2 == 0 then '0' else '1', k + 1)
  else if is_zero_consistent then ('0', k)
  else if is_one_consistent then ('1', k)
  else ('_', k)

/-- The while (num_cells_to_fill > 0) loop of grid.c
generate_random_grid: draw a random row and column; when that cell is
'_', place strategically, write the result (a no-op when the
placement character is '_') and decrement the counter.  The loop gets
explicit fuel because rand() may keep hitting assigned cells. -/
def generate_fill_loop (rng : Nat → Nat) :
    Nat → t_grid → Nat → Nat → t_grid × Nat
  | 0, g, k, _ => (g, k)
  | fuel + 1, g, k, toFill =>
    if toFill == 0 then (g, k)
    else
      let row : Nat := rng k % g.size
      let col : Nat := rng (k + 1) % g.size
      if get_cell (row : Int) (col : Int) g == '_' then
        let vc := place_cell_strategically g (row : Int) (col : Int) rng (k + 2)
        generate_fill_loop rng fuel (set_cell (row : Int) (col : Int) g vc.1) vc.2 (toFill - 1)
      else
        generate_fill_loop rng fuel g (k + 2) toFill

/-- grid.c generate_random_grid: reject an invalid percentage (the C
program exits, modelled as none), reset the grid to a fresh empty
buffer of the same size, then run the fill loop for
percentage * size * size / 100 budget units. -/
def generate_random_grid (g : t_grid) (percentage : Nat) (rng : Nat → Nat)
    (k fuel : Nat) : Option (t_grid × Nat) :=
  if 100 < percentage then none
  else
    some (generate_fill_loop rng fuel (grid_allocate g.size) k
      (percentage * g.size * g.size / 100))

/-- The do/while loop of grid.c generate_random_grid_with_solution:
generate, solve in FIRST mode, free the returned solution pointer
(which aliases the working grid), count the attempt; repeat only while
the solver returned NULL and the budget of INT_MAX attempts remains.
The result records the final grid, attempt_count, and whether the
unsolvable-after-retries failure was reported. -/
def gws_loop (pct : Nat) (rng : Nat → Nat) (genFuel solveFuel : Nat) :
    Nat → t_grid → Nat → Nat → t_grid × Nat × Bool
  | 0, g, _, done => (g, done, true)
  | left + 1, g, k, done =>
    match generate_random_grid g pct rng k genFuel with
    | none => (g, done, true)
    | some p =>
      match grid_solver p.1 mode_t.first solveFuel with
      | some gs => (grid_free gs, done + 1, false)
      | none =>
        if done + 1 < int_max then gws_loop pct rng genFuel solveFuel left p.1 p.2 (done + 1)
        else (p.1, done + 1, true)

/-- grid.c generate_random_grid_with_solution: the retrying probe runs
only for sizes 4 and 8; other sizes take one plain generation. -/
def generate_random_grid_with_solution (g : t_grid) (pct : Nat) (rng : Nat → Nat)
    (k genFuel solveFuel : Nat) : t_grid × Nat × Bool :=
  if g.size == 8 || g.size == 4 then
    gws_loop pct rng genFuel solveFuel int_max g k 0
  else
    match generate_random_grid g pct rng k genFuel with
    | none => (g, 0, true)
    | some p => (p.1, 0, false)

/-- Counterexample for C5 as stated.  With fill percentage 50 on a
4-by-4 grid (target: 8 of the 16 cells assigned) and this random
stream, the filler stops with only 4 cells assigned even though a
placement is still possible (cell (3,3) is Empty and takes '0'
consistently): every selection of the unplaceable Empty cell (0,0)
consumed one unit of the budget. -/
theorem c5_stops_early_counterexample :
    generate_random_grid (grid_allocate 4) 50
        (fun i => [0,1,0,0,2,0,1,0,1,2,0,1].getD i 0) 0 100 =
      some ({ size := 4, grid :=
        ['_','0','0','_','1','_','_','_','1','_','_','_','_','_','_','_'] }, 20) ∧
    emptyCount { size := 4, grid :=
        ['_','0','0','_','1','_','_','_','1','_','_','_','_','_','_','_'] } = 12 ∧
    50 * 4 * 4 / 100 = 8 ∧
    get_cell 3 3 { size := 4, grid :=
        ['_','0','0','_','1','_','_','_','1','_','_','_','_','_','_','_'] } = '_' ∧
    check_consistency_after_placement { size := 4, grid :=
        ['_','0','0','_','1','_','_','_','1','_','_','_','_','_','_','_'] } 3 3 '0' = true := by
  refine ⟨by decide, by decide, by decide, by decide, by decide⟩

/-- C5 as amended.  Per selected Empty cell: exactly one consistent
value is placed directly; two consistent values are decided by the
parity of the next random number; no consistent value leaves the cell
untouched.  Every selected Empty cell consumes exactly one unit of the
fill budget whether or not a value was placed, and the loop stops
exactly when that budget (fill_percent of N * N, divided by 100) is
exhausted. -/
theorem c5_filler_behaviour :
    (∀ (g : t_grid) (row col : Int) (rng : Nat → Nat) (k : Nat),
      check_consistency_after_placement g row col '0' = true →
      check_consistency_after_placement g row col '1' = false →
      place_cell_strategically g row col rng k = ('0', k)) ∧
    (∀ (g : t_grid) (row col : Int) (rng : Nat → Nat) (k : Nat),
      check_consistency_after_placement g row col '0' = false →
      check_consistency_after_placement g row col '1' = true →
      place_cell_strategically g row col rng k = ('1', k)) ∧
    (∀ (g : t_grid) (row col : Int) (rng : Nat → Nat) (k : Nat),
      check_consistency_after_placement g row col '0' = false →
      check_consistency_after_placement g row col '1' = false →
      place_cell_strategically g row col rng k = ('_', k)) ∧
    (∀ (g : t_grid) (row col : Int) (rng : Nat → Nat) (k : Nat),
      check_consistency_after_placement g row col '0' = true →
      check_consistency_after_placement g row col '1' = true →
      place_cell_strategically g row col rng k =
        (if rng k % 2 == 0 then '0' else '1', k + 1)) ∧
    (∀ (rng : Nat → Nat) (fuel : Nat) (g : t_grid) (k : Nat),
      generate_fill_loop rng (fuel + 1) g k 0 = (g, k)) ∧
    (∀ (rng : Nat → Nat) (fuel : Nat) (g : t_grid) (k n : Nat),
      get_cell ((rng k % g.size : Nat) : Int) ((rng (k + 1) % g.size : Nat) : Int) g = '_' →
      generate_fill_loop rng (fuel + 1) g k (n + 1) =
        generate_fill_loop rng fuel
          (set_cell ((rng k % g.size : Nat) : Int) ((rng (k + 1) % g.size : Nat) : Int) g
            (place_cell_strategically g ((rng k % g.size : Nat) : Int)
              ((rng (k + 1) % g.size : Nat) : Int) rng (k + 2)).1)
          (place_cell_strategically g ((rng k % g.size : Nat) : Int)
            ((rng (k + 1) % g.size : Nat) : Int) rng (k + 2)).2 n) := by
  refine ⟨?_, ?_, ?_, ?_, ?_, ?_⟩
  · intro g row col rng k h0 h1
    unfold place_cell_strategically
    rw [h0, h1]
    rfl
  · intro g row col rng k h0 h1
    unfold place_cell_strategically
    rw [h0, h1]
    rfl
  · intro g row col rng k h0 h1
    unfold place_cell_strategically
    rw [h0, h1]
    rfl
  · intro g row col rng k h0 h1
    unfold place_cell_strategically
    rw [h0, h1]
    rfl
  · intro rng fuel g k
    rfl
  · intro rng fuel g k n hcell
    show (if (n + 1 : Nat) == 0 then (g, k)
      else
        let row : Nat := rng k % g.size
        let col : Nat := rng (k + 1) % g.size
        if get_cell (row : Int) (col : Int) g == '_' then
          let vc := place_cell_strategically g (row : Int) (col : Int) rng (k + 2)
          generate_fill_loop rng fuel (set_cell (row : Int) (col : Int) g vc.1) vc.2 (n + 1 - 1)
        else
          generate_fill_loop rng fuel g (k + 2) (n + 1)) = _
    rw [if_neg (by simp)]
    dsimp only
    rw [if_pos (by rw [beq_iff_eq]; exact hcell), Nat.add_sub_cancel]

/-- Witness for C5: the amended per-cell rules applied at a concrete
grid and cell. -/
theorem c5_filler_behaviour_witness :
    place_cell_strategically { size := 4, grid :=
        ['_','0','0','_','1','_','_','_','1','_','_','_','_','_','_','_'] } 0 3
        (fun _ => 0) 7 = ('1', 7) :=
  c5_filler_behaviour.2.1 { size := 4, grid :=
        ['_','0','0','_','1','_','_','_','1','_','_','_','_','_','_','_'] } 0 3
    (fun _ => 0) 7 (by decide) (by decide)

/-- C3 (code defect evidence).  grid_solver returns the working grid
pointer and never NULL, so the retry loop of
generate_random_grid_with_solution always accepts its first attempt:
for sizes 4 and 8 it performs exactly one attempt, never reports the
unsolvable-after-retries failure, and hands back a grid whose cell
buffer was freed (grid_free was applied to the solver's return value,
which aliases the working grid). -/
theorem c3_generator_single_attempt :
    (∀ (g2 : t_grid) (mode : mode_t) (fuel : Nat), grid_solver g2 mode fuel ≠ none) ∧
    ∀ (g : t_grid) (pct : Nat) (rng : Nat → Nat) (k genFuel solveFuel : Nat),
      g.size = 4 ∨ g.size = 8 → pct ≤ 100 →
      (generate_random_grid_with_solution g pct rng k genFuel solveFuel).2.1 = 1 ∧
      (generate_random_grid_with_solution g pct rng k genFuel solveFuel).2.2 = false ∧
      (generate_random_grid_with_solution g pct rng k genFuel solveFuel).1.grid = [] := by
  constructor
  · intro g2 mode fuel
    unfold grid_solver
    cases mode <;> simp
  · intro g pct rng k genFuel solveFuel hsz hpct
    have hcond : (g.size == 8 || g.size == 4) = true := by
      rcases hsz with h | h <;> simp [h]
    have hloop : generate_random_grid_with_solution g pct rng k genFuel solveFuel =
        gws_loop pct rng genFuel solveFuel int_max g k 0 := by
      unfold generate_random_grid_with_solution
      rw [if_pos hcond]
    have hgen : generate_random_grid g pct rng k genFuel =
        some (generate_fill_loop rng genFuel (grid_allocate g.size) k
          (pct * g.size * g.size / 100)) := by
      unfold generate_random_grid
      rw [if_neg (by omega)]
    rw [hloop, show int_max = 2147483646 + 1 from rfl]
    simp only [gws_loop, hgen, grid_solver]
    exact ⟨trivial, trivial, rfl⟩

/-- Witness for C3 at a concrete size-4 grid, percentage and stream. -/
theorem c3_generator_single_attempt_witness :
    (generate_random_grid_with_solution (grid_allocate 4) 0 (fun _ => 0) 0 0 0).2.1 = 1 ∧
    (generate_random_grid_with_solution (grid_allocate 4) 0 (fun _ => 0) 0 0 0).2.2 = false ∧
    (generate_random_grid_with_solution (grid_allocate 4) 0 (fun _ => 0) 0 0 0).1.grid = [] :=
  c3_generator_single_attempt.2 (grid_allocate 4) 0 (fun _ => 0) 0 0 0
    (Or.inl (by decide)) (by decide)

/-! ### Positional analysis of the run-completion passes (claim C4) -/

/-- The opposite symbol, as written by the run-completion rules. -/
def opposite (v : Char) : Char := if v == '0' then '1' else '0'

lemma get_try_fill_other (row col a b : Int) (v : Char) (e : Bool)
    (hne : ¬(a = row ∧ b = col)) (s : t_grid × Bool) :
    get_cell a b (try_fill row col v e s).1 = get_cell a b s.1 := by
  unfold try_fill
  split
  · exact get_set_other row col a b s.1 v hne
  · rfl

lemma try_fill_size (row col : Int) (v : Char) (e : Bool) (s : t_grid × Bool) :
    (try_fill row col v e s).1.size = s.1.size := by
  unfold try_fill
  split
  · exact set_cell_size row col s.1 v
  · rfl

lemma stepOut_get_preserve {s t : t_grid × Bool} (h : StepOut s t) (a b : Int)
    (hne : get_cell a b s.1 ≠ '_') : get_cell a b t.1 = get_cell a b s.1 := by
  rcases h with h | h
  · rw [h]
  · exact h.2.1.2 a b hne

lemma stepOut_size {s t : t_grid × Bool} (h : StepOut s t) : t.1.size = s.1.size := by
  rcases h with h | h
  · rw [h]
  · exact h.2.1.1

/-- Folding bodies that do not touch cell (a, b) leaves it unchanged. -/
lemma foldl_get_eq {β : Type} (body : t_grid × Bool → β → t_grid × Bool) (a b : Int) :
    ∀ (l : List β) (s : t_grid × Bool),
      (∀ x ∈ l, ∀ t, get_cell a b (body t x).1 = get_cell a b t.1) →
      get_cell a b (List.foldl body s l).1 = get_cell a b s.1 := by
  intro l
  induction l with
  | nil => intro s _; rfl
  | cons x t ih =>
    intro s hb
    rw [List.foldl_cons,
      ih (body s x) (fun y hy u => hb y (List.mem_cons_of_mem x hy) u),
      hb x (List.mem_cons_self x t) s]

/-- Folding StepOut bodies keeps the value of every assigned cell. -/
lemma foldl_stepOut_preserve {β : Type} (body : t_grid × Bool → β → t_grid × Bool)
    (l : List β) (hb : ∀ x ∈ l, ∀ s, StepOut s (body s x)) (a b : Int)
    (s : t_grid × Bool) (hne : get_cell a b s.1 ≠ '_') :
    get_cell a b (List.foldl body s l).1 = get_cell a b s.1 :=
  stepOut_get_preserve (foldl_stepOut body l hb s) a b hne

/-- Folding StepOut bodies keeps the grid size. -/
lemma foldl_stepOut_size {β : Type} (body : t_grid × Bool → β → t_grid × Bool)
    (l : List β) (hb : ∀ x ∈ l, ∀ s, StepOut s (body s x)) (s : t_grid × Bool) :
    (List.foldl body s l).1.size = s.1.size :=
  stepOut_size (foldl_stepOut body l hb s)

/-- The row body at (row, col) writes only to (row, col + 2) and
(row, col - 1). -/
lemma consec_rows_body_other (row col a b : Int)
    (hne2 : ¬(a = row ∧ b = col + 2)) (hne3 : ¬(a = row ∧ b = col - 1))
    (s : t_grid × Bool) :
    get_cell a b (consec_rows_body row col s).1 = get_cell a b s.1 := by
  unfold consec_rows_body
  dsimp only
  rw [apply_ite (fun t : t_grid × Bool => get_cell a b t.1),
    get_try_fill_other row (col - 1) a b '0' _ hne3,
    get_try_fill_other row (col + 2) a b '0' _ hne2, ite_self,
    apply_ite (fun t : t_grid × Bool => get_cell a b t.1),
    get_try_fill_other row (col - 1) a b '1' _ hne3,
    get_try_fill_other row (col + 2) a b '1' _ hne2, ite_self]

/-- The column body at (col, row) writes only to (row + 2, col) and
(row - 1, col). -/
lemma consec_cols_body_other (col row a b : Int)
    (hne2 : ¬(a = row + 2 ∧ b = col)) (hne3 : ¬(a = row - 1 ∧ b = col))
    (s : t_grid × Bool) :
    get_cell a b (consec_cols_body col row s).1 = get_cell a b s.1 := by
  unfold consec_cols_body
  dsimp only
  rw [apply_ite (fun t : t_grid × Bool => get_cell a b t.1),
    get_try_fill_other (row - 1) col a b '0' _ hne3,
    get_try_fill_other (row + 2) col a b '0' _ hne2, ite_self,
    apply_ite (fun t : t_grid × Bool => get_cell a b t.1),
    get_try_fill_other (row - 1) col a b '1' _ hne3,
    get_try_fill_other (row + 2) col a b '1' _ hne2, ite_self]

/-- At the pair's own loop iteration the row body writes the opposite
value right after the pair (the after position is inside the board for
every scanned pair start). -/
lemma consec_rows_body_fires (row col : Int) (v : Char) (hv : v = '0' ∨ v = '1')
    (s : t_grid × Bool)
    (hp0 : get_cell row col s.1 = v) (hp1 : get_cell row (col + 1) s.1 = v)
    (ht : get_cell row (col + 2) s.1 = '_') (hsz : col + 2 < (s.1.size : Int)) :
    get_cell row (col + 2) (consec_rows_body row col s).1 = opposite v := by
  have hW1 : ∀ w : Char, w = '0' ∨ w = '1' →
      try_fill row (col + 2) w (decide (col + 2 < (s.1.size : Int))) s =
        (set_cell row (col + 2) s.1 w, true) := by
    intro w _
    unfold try_fill
    rw [if_pos (by simp [hsz, ht])]
  have hW2 : ∀ w w2 : Char,
      try_fill row (col - 1) w
        (decide (((set_cell row (col + 2) s.1 w2, true).1.size : Int) ≤ col + 2) &&
          decide (0 ≤ col - 1)) (set_cell row (col + 2) s.1 w2, true) =
        (set_cell row (col + 2) s.1 w2, true) := by
    intro w w2
    unfold try_fill
    rw [if_neg]
    rw [Bool.and_eq_true, Bool.and_eq_true]
    rintro ⟨⟨h1, _⟩, _⟩
    rw [decide_eq_true_eq, set_cell_size] at h1
    omega
  have hc : ∀ w2 : Char, get_cell row col (set_cell row (col + 2) s.1 w2) = v := by
    intro w2
    rw [get_set_other row (col + 2) row col s.1 w2 (by rintro ⟨_, h⟩; omega)]
    exact hp0
  unfold consec_rows_body
  dsimp only
  rcases hv with rfl | rfl
  · rw [hp0, hp1]
    rw [if_pos (show (('0' == '0' && '0' == '0') = true) from rfl)]
    rw [hW1 '1' (Or.inr (Eq.refl _)), hW2 '1' '1']
    rw [hc '1']
    rw [if_neg (by simp :
      ¬(('0' == '1' && get_cell row (col + 1) (set_cell row (col + 2) s.1 '1') == '1') = true))]
    rw [get_set_same row (col + 2) s.1 '1' ht (Or.inr (Eq.refl _))]
    rfl
  · rw [hp0, hp1]
    rw [if_neg (show ¬(('1' == '0' && '1' == '0') = true) from by decide)]
    rw [hp0, hp1]
    rw [if_pos (show (('1' == '1' && '1' == '1') = true) from rfl)]
    rw [hW1 '0' (Or.inl (Eq.refl _)), hW2 '0' '0']
    rw [get_set_same row (col + 2) s.1 '0' ht (Or.inl (Eq.refl _))]
    rfl

/-- At the pair's own loop iteration the column body writes the
opposite value right after the pair if that cell still reads '_'. -/
lemma consec_cols_body_fires (col row : Int) (v : Char) (hv : v = '0' ∨ v = '1')
    (s : t_grid × Bool)
    (hp0 : get_cell row col s.1 = v) (hp1 : get_cell (row + 1) col s.1 = v)
    (ht : get_cell (row + 2) col s.1 = '_') :
    get_cell (row + 2) col (consec_cols_body col row s).1 = opposite v := by
  have hW1 : ∀ w : Char, try_fill (row + 2) col w true s = (set_cell (row + 2) col s.1 w, true) := by
    intro w
    unfold try_fill
    rw [if_pos (by simp [ht])]
  unfold consec_cols_body
  dsimp only
  rcases hv with rfl | rfl
  · rw [hp0, hp1]
    rw [if_pos (show (('0' == '0' && '0' == '0') = true) from rfl)]
    rw [hW1 '1']
    have hval : get_cell row col
        (try_fill (row - 1) col '1' true (set_cell (row + 2) col s.1 '1', true)).1 = '0' := by
      rw [get_try_fill_other (row - 1) col row col '1' true (by rintro ⟨h, _⟩; omega)]
      show get_cell row col (set_cell (row + 2) col s.1 '1') = '0'
      rw [get_set_other (row + 2) col row col s.1 '1' (by rintro ⟨h, _⟩; omega)]
      exact hp0
    rw [hval]
    rw [if_neg (by simp : ¬(('0' == '1' &&
      get_cell (row + 1) col
        (try_fill (row - 1) col '1' true (set_cell (row + 2) col s.1 '1', true)).1 == '1') = true))]
    rw [get_try_fill_other (row - 1) col (row + 2) col '1' true (by rintro ⟨h, _⟩; omega)]
    show get_cell (row + 2) col (set_cell (row + 2) col s.1 '1') = _
    rw [get_set_same (row + 2) col s.1 '1' ht (Or.inr (Eq.refl _))]
    rfl
  · rw [hp0, hp1]
    rw [if_neg (show ¬(('1' == '0' && '1' == '0') = true) from by decide)]
    rw [hp0, hp1]
    rw [if_pos (show (('1' == '1' && '1' == '1') = true) from rfl)]
    rw [hW1 '0']
    rw [get_try_fill_other (row - 1) col (row + 2) col '0' true (by rintro ⟨h, _⟩; omega)]
    show get_cell (row + 2) col (set_cell (row + 2) col s.1 '0') = _
    rw [get_set_same (row + 2) col s.1 '0' ht (Or.inl (Eq.refl _))]
    rfl

/-- At the pair's own loop iteration the column body also fills the
cell right before the pair: afterwards that cell cannot read '_'. -/
lemma consec_cols_body_fills_before (col row : Int) (v : Char) (hv : v = '0' ∨ v = '1')
    (s : t_grid × Bool)
    (hp0 : get_cell row col s.1 = v) (hp1 : get_cell (row + 1) col s.1 = v) :
    get_cell (row - 1) col (consec_cols_body col row s).1 ≠ '_' := by
  have hkey : ∀ (w : Char), w = '0' ∨ w = '1' → ∀ W : t_grid × Bool,
      get_cell (row - 1) col (try_fill (row - 1) col w true W).1 ≠ '_' := by
    intro w hw W
    unfold try_fill
    split
    · rename_i hcond
      simp only [Bool.true_and, beq_iff_eq] at hcond
      show get_cell (row - 1) col (set_cell (row - 1) col W.1 w) ≠ '_'
      rw [get_set_same (row - 1) col W.1 w hcond hw]
      rcases hw with rfl | rfl <;> decide
    · rename_i hcond
      simp only [Bool.true_and, beq_iff_eq] at hcond
      exact hcond
  unfold consec_cols_body
  dsimp only
  rcases hv with rfl | rfl
  · rw [hp0, hp1]
    rw [if_pos (show (('0' == '0' && '0' == '0') = true) from rfl)]
    have hval : get_cell row col
        (try_fill (row - 1) col '1' true (try_fill (row + 2) col '1' true s)).1 = '0' := by
      rw [get_try_fill_other (row - 1) col row col '1' true (by rintro ⟨h, _⟩; omega)]
      rw [get_try_fill_other (row + 2) col row col '1' true (by rintro ⟨h, _⟩; omega)]
      exact hp0
    rw [hval]
    rw [if_neg (by simp : ¬(('0' == '1' &&
      get_cell (row + 1) col
        (try_fill (row - 1) col '1' true (try_fill (row + 2) col '1' true s)).1 == '1') = true))]
    exact hkey '1' (Or.inr (Eq.refl _)) (try_fill (row + 2) col '1' true s)
  · rw [hp0, hp1]
    rw [if_neg (show ¬(('1' == '0' && '1' == '0') = true) from by decide)]
    rw [hp0, hp1]
    rw [if_pos (show (('1' == '1' && '1' == '1') = true) from rfl)]
    exact hkey '0' (Or.inl (Eq.refl _)) (try_fill (row + 2) col '0' true s)

lemma preserves_of_stepOut {s t : t_grid × Bool} (h : StepOut s t) :
    Preserves s.1 t.1 := by
  rcases h with h | h
  · rw [h]
    exact preserves_rfl s.1
  · exact h.2.1

/-- Splitting a fold over range n at a pivot position: if the bodies
before the pivot do not touch the watched cell, the pivot body
establishes property R of the watched cell (given only that the state
reached is a monotone evolution of the start and still holds the start
value at the watched cell), and R rules out '_', then R holds of the
watched cell after the whole fold. -/
lemma fold_pivot_prop (body : t_grid × Bool → Nat → t_grid × Bool)
    (n pos : Nat) (hpos : pos < n) (s0 : t_grid × Bool) (a b : Int)
    (R : Char → Prop) (hR : ∀ ch : Char, R ch → ch ≠ '_')
    (hstep : ∀ (x : Nat) (t : t_grid × Bool), StepOut t (body t x))
    (hpre : ∀ x : Nat, x < pos → ∀ t : t_grid × Bool,
      get_cell a b (body t x).1 = get_cell a b t.1)
    (hfire : ∀ t : t_grid × Bool, Preserves s0.1 t.1 →
      get_cell a b t.1 = get_cell a b s0.1 →
      R (get_cell a b (body t pos).1)) :
    R (get_cell a b (List.foldl body s0 (List.range n)).1) := by
  have hsplit : List.range n = List.range' 0 pos ++ pos :: List.range' (pos + 1) (n - pos - 1) := by
    rw [List.range_eq_range']
    nth_rewrite 1 [show n = n - pos + pos from by omega]
    rw [← List.range'_append_1 0 pos (n - pos), Nat.zero_add,
      show n - pos = (n - pos - 1) + 1 from by omega, List.range'_succ,
      Nat.add_sub_cancel]
  rw [hsplit, List.foldl_append, List.foldl_cons]
  have hmem : ∀ x ∈ List.range' 0 pos, x < pos := by
    intro x hx
    rw [List.mem_range'] at hx
    obtain ⟨i, hi, rfl⟩ := hx
    omega
  have hPres : Preserves s0.1 (List.foldl body s0 (List.range' 0 pos)).1 :=
    preserves_of_stepOut (foldl_stepOut body _ (fun x _ t => hstep x t) s0)
  have htgt : get_cell a b (List.foldl body s0 (List.range' 0 pos)).1 = get_cell a b s0.1 :=
    foldl_get_eq body a b _ s0 (fun x hx t => hpre x (hmem x hx) t)
  have hfired := hfire _ hPres htgt
  rw [foldl_stepOut_preserve body _ (fun x _ t => hstep x t) a b _
    (hR _ hfired)]
  exact hfired

/-- Variant without any claim on the watched cell before the pivot:
the pivot body establishes R from monotone evolution alone. -/
lemma fold_pivot_prop2 (body : t_grid × Bool → Nat → t_grid × Bool)
    (n pos : Nat) (hpos : pos < n) (s0 : t_grid × Bool) (a b : Int)
    (R : Char → Prop) (hR : ∀ ch : Char, R ch → ch ≠ '_')
    (hstep : ∀ (x : Nat) (t : t_grid × Bool), StepOut t (body t x))
    (hfire : ∀ t : t_grid × Bool, Preserves s0.1 t.1 →
      R (get_cell a b (body t pos).1)) :
    R (get_cell a b (List.foldl body s0 (List.range n)).1) := by
  have hsplit : List.range n = List.range' 0 pos ++ pos :: List.range' (pos + 1) (n - pos - 1) := by
    rw [List.range_eq_range']
    nth_rewrite 1 [show n = n - pos + pos from by omega]
    rw [← List.range'_append_1 0 pos (n - pos), Nat.zero_add,
      show n - pos = (n - pos - 1) + 1 from by omega, List.range'_succ,
      Nat.add_sub_cancel]
  rw [hsplit, List.foldl_append, List.foldl_cons]
  have hPres : Preserves s0.1 (List.foldl body s0 (List.range' 0 pos)).1 :=
    preserves_of_stepOut (foldl_stepOut body _ (fun x _ t => hstep x t) s0)
  have hfired := hfire _ hPres
  rw [foldl_stepOut_preserve body _ (fun x _ t => hstep x t) a b _
    (hR _ hfired)]
  exact hfired

/-- One pass of apply_consecutive_zeros_ones_rows forces the cell right
after any scanned horizontal pair of equal assigned symbols, when that
cell reads '_'. -/
lemma rows_pass_fires (g : t_grid) (r c : Nat) (v : Char) (hv : v = '0' ∨ v = '1')
    (hc2 : c + 2 < g.size)
    (e0 : get_cell r c g = v) (e1 : get_cell r ((c : Int) + 1) g = v)
    (e2 : get_cell r ((c : Int) + 2) g = '_') :
    get_cell r ((c : Int) + 2) (apply_consecutive_zeros_ones_rows g).1 = opposite v := by
  have hv_ne : v ≠ '_' := by rcases hv with rfl | rfl <;> decide
  have hvs : v ≠ ' ' := by rcases hv with rfl | rfl <;> decide
  have hb := get_cell_bounds r c g (by rw [e0]; exact hvs)
  have hr : r < g.size := by exact_mod_cast hb.2.1
  have hRop : ∀ ch : Char, ch = opposite v → ch ≠ '_' := by
    intro ch hch
    rw [hch]
    rcases hv with rfl | rfl <;> decide
  unfold apply_consecutive_zeros_ones_rows
  refine fold_pivot_prop _ g.size r hr (g, false) r ((c : Int) + 2)
    (fun ch => ch = opposite v) hRop ?_ ?_ ?_
  · intro x t
    exact foldl_stepOut (fun s2 (col : Nat) => consec_rows_body (x : Int) (col : Int) s2)
      (List.range (g.size - 2)) (fun y _ u => consec_rows_body_spec (x : Int) (y : Int) u) t
  · intro x hx t
    refine foldl_get_eq (fun s2 (col : Nat) => consec_rows_body (x : Int) (col : Int) s2)
      r ((c : Int) + 2) (List.range (g.size - 2)) t (fun y _ u => ?_)
    refine consec_rows_body_other (x : Int) (y : Int) r ((c : Int) + 2) ?_ ?_ u
    · rintro ⟨h1, _⟩
      omega
    · rintro ⟨h1, _⟩
      omega
  · intro t hPres htgt
    refine fold_pivot_prop _ (g.size - 2) c (by omega) t r ((c : Int) + 2)
      (fun ch => ch = opposite v) hRop ?_ ?_ ?_
    · intro x u
      exact consec_rows_body_spec r x u
    · intro x hx u
      refine consec_rows_body_other r x r ((c : Int) + 2) ?_ ?_ u
      · rintro ⟨_, h2⟩
        omega
      · rintro ⟨_, h2⟩
        omega
    · intro u hPres2 htgt2
      have hP : Preserves g u.1 := preserves_trans hPres hPres2
      have hp0 : get_cell r c u.1 = v := by
        rw [hP.2 r c (by rw [e0]; exact hv_ne)]
        exact e0
      have hp1 : get_cell r ((c : Int) + 1) u.1 = v := by
        rw [hP.2 r ((c : Int) + 1) (by rw [e1]; exact hv_ne)]
        exact e1
      have ht2 : get_cell r ((c : Int) + 2) u.1 = '_' := by
        rw [htgt2, htgt]
        exact e2
      have hszu : (c : Int) + 2 < (u.1.size : Int) := by
        rw [hPres2.1, hPres.1]
        show (c : Int) + 2 < ((g.size : Nat) : Int)
        omega
      exact consec_rows_body_fires r c v hv u hp0 hp1 ht2 hszu

/-- One pass of apply_consecutive_zeros_ones_columns forces the cell right
below any scanned vertical pair of equal assigned symbols, when that cell
reads '_'. -/
lemma cols_pass_fires (g : t_grid) (r c : Nat) (v : Char) (hv : v = '0' ∨ v = '1')
    (hr2 : r + 2 < g.size)
    (e0 : get_cell r c g = v) (e1 : get_cell ((r : Int) + 1) c g = v)
    (e2 : get_cell ((r : Int) + 2) c g = '_') :
    get_cell ((r : Int) + 2) c (apply_consecutive_zeros_ones_columns g).1 = opposite v := by
  have hv_ne : v ≠ '_' := by rcases hv with rfl | rfl <;> decide
  have hvs : v ≠ ' ' := by rcases hv with rfl | rfl <;> decide
  have hb := get_cell_bounds r c g (by rw [e0]; exact hvs)
  have hc : c < g.size := by exact_mod_cast hb.2.2.2
  have hRop : ∀ ch : Char, ch = opposite v → ch ≠ '_' := by
    intro ch hch
    rw [hch]
    rcases hv with rfl | rfl <;> decide
  unfold apply_consecutive_zeros_ones_columns
  refine fold_pivot_prop _ g.size c hc (g, false) ((r : Int) + 2) c
    (fun ch => ch = opposite v) hRop ?_ ?_ ?_
  · intro x t
    exact foldl_stepOut (fun s2 (row : Nat) => consec_cols_body (x : Int) (row : Int) s2)
      (List.range (g.size - 2)) (fun y _ u => consec_cols_body_spec (x : Int) (y : Int) u) t
  · intro x hx t
    refine foldl_get_eq (fun s2 (row : Nat) => consec_cols_body (x : Int) (row : Int) s2)
      ((r : Int) + 2) c (List.range (g.size - 2)) t (fun y _ u => ?_)
    refine consec_cols_body_other (x : Int) (y : Int) ((r : Int) + 2) c ?_ ?_ u
    · rintro ⟨_, h2⟩
      omega
    · rintro ⟨_, h2⟩
      omega
  · intro t hPres htgt
    refine fold_pivot_prop _ (g.size - 2) r (by omega) t ((r : Int) + 2) c
      (fun ch => ch = opposite v) hRop ?_ ?_ ?_
    · intro x u
      exact consec_cols_body_spec c x u
    · intro x hx u
      refine consec_cols_body_other c (x : Int) ((r : Int) + 2) c ?_ ?_ u
      · rintro ⟨h1, _⟩
        omega
      · rintro ⟨h1, _⟩
        omega
    · intro u hPres2 htgt2
      have hP : Preserves g u.1 := preserves_trans hPres hPres2
      have hp0 : get_cell r c u.1 = v := by
        rw [hP.2 r c (by rw [e0]; exact hv_ne)]
        exact e0
      have hp1 : get_cell ((r : Int) + 1) c u.1 = v := by
        rw [hP.2 ((r : Int) + 1) c (by rw [e1]; exact hv_ne)]
        exact e1
      have ht2 : get_cell ((r : Int) + 2) c u.1 = '_' := by
        rw [htgt2, htgt]
        exact e2
      exact consec_cols_body_fires c r v hv u hp0 hp1 ht2

/-- One pass of apply_consecutive_zeros_ones_columns leaves the cell right
above any scanned vertical pair of equal assigned symbols non-Empty: the
body writes the before position unconditionally (only try_fill's own guard
protects assigned cells). -/
lemma cols_pass_fills_before (g : t_grid) (r c : Nat) (v : Char)
    (hv : v = '0' ∨ v = '1') (hr2 : r + 2 < g.size)
    (e0 : get_cell r c g = v) (e1 : get_cell ((r : Int) + 1) c g = v) :
    get_cell ((r : Int) - 1) c (apply_consecutive_zeros_ones_columns g).1 ≠ '_' := by
  have hv_ne : v ≠ '_' := by rcases hv with rfl | rfl <;> decide
  have hvs : v ≠ ' ' := by rcases hv with rfl | rfl <;> decide
  have hb := get_cell_bounds r c g (by rw [e0]; exact hvs)
  have hc : c < g.size := by exact_mod_cast hb.2.2.2
  unfold apply_consecutive_zeros_ones_columns
  refine fold_pivot_prop2 _ g.size c hc (g, false) ((r : Int) - 1) c
    (fun ch => ch ≠ '_') (fun _ h => h) ?_ ?_
  · intro x t
    exact foldl_stepOut (fun s2 (row : Nat) => consec_cols_body (x : Int) (row : Int) s2)
      (List.range (g.size - 2)) (fun y _ u => consec_cols_body_spec (x : Int) (y : Int) u) t
  · intro t hPres
    refine fold_pivot_prop2 _ (g.size - 2) r (by omega) t ((r : Int) - 1) c
      (fun ch => ch ≠ '_') (fun _ h => h) ?_ ?_
    · intro x u
      exact consec_cols_body_spec c x u
    · intro u hPres2
      have hP : Preserves g u.1 := preserves_trans hPres hPres2
      have hp0 : get_cell r c u.1 = v := by
        rw [hP.2 r c (by rw [e0]; exact hv_ne)]
        exact e0
      have hp1 : get_cell ((r : Int) + 1) c u.1 = v := by
        rw [hP.2 ((r : Int) + 1) c (by rw [e1]; exact hv_ne)]
        exact e1
      exact consec_cols_body_fills_before c r v hv u hp0 hp1

/-- Grid with a horizontal pair at (0,2)-(0,3): the after position (0,4)
is off-board and the before cell (0,1) is Empty. -/
def c4_cx_grid : t_grid :=
  ⟨4, ['_', '_', '0', '0',
       '_', '_', '_', '_',
       '_', '_', '_', '_',
       '_', '_', '_', '_']⟩

set_option maxRecDepth 4000 in
/-- C4: counterexample to the before-the-pair rule. In c4_cx_grid row 0 is
`_ _ 0 0`: the pair (0,2)-(0,3) is two consecutive equal non-Empty cells,
its after position (0,4) is off-board and its before cell (0,1) is Empty,
so the spec demands (0,1) be forced to '1'. One pass of either direction
of the run-completion heuristic leaves the grid completely unchanged: the
scan loops stop two short of the line end, so a pair in the last two
positions is never examined, and the before-branch of the rows pass is
unreachable anyway. -/
theorem c4_before_rule_counterexample :
    get_cell 0 2 c4_cx_grid = '0' ∧ get_cell 0 3 c4_cx_grid = '0' ∧
    get_cell 0 4 c4_cx_grid = ' ' ∧ get_cell 0 1 c4_cx_grid = '_' ∧
    (apply_consecutive_zeros_ones_rows c4_cx_grid).1 = c4_cx_grid ∧
    (apply_consecutive_zeros_ones_columns c4_cx_grid).1 = c4_cx_grid := by
  decide

set_option maxRecDepth 4000 in
/-- C4 (amended): what the run-completion passes actually do. Whenever two
consecutive equal non-Empty cells sit at scanned positions (line index at
most N - 3), one pass forces the Empty cell immediately after the pair to
the opposite value — this holds for the rows pass and for the columns
pass, and in particular row `0 0 _ _` (N = 4) becomes `0 0 1 _`. The cell
immediately before a scanned vertical pair is, however, written
unconditionally by the columns pass (not only when the after position is
off-board), so it is never left Empty; pairs whose first cell sits in the
last two positions of the line are never examined at all (the
counterexample), and the rows pass never writes before a pair. -/
theorem c4_run_completion_behaviour :
    (∀ (g : t_grid) (r c : Nat) (v : Char), (v = '0' ∨ v = '1') →
      c + 2 < g.size →
      get_cell r c g = v → get_cell r ((c : Int) + 1) g = v →
      get_cell r ((c : Int) + 2) g = '_' →
      get_cell r ((c : Int) + 2) (apply_consecutive_zeros_ones_rows g).1 = opposite v) ∧
    (∀ (g : t_grid) (r c : Nat) (v : Char), (v = '0' ∨ v = '1') →
      r + 2 < g.size →
      get_cell r c g = v → get_cell ((r : Int) + 1) c g = v →
      get_cell ((r : Int) + 2) c g = '_' →
      get_cell ((r : Int) + 2) c (apply_consecutive_zeros_ones_columns g).1 = opposite v) ∧
    (∀ (g : t_grid) (r c : Nat) (v : Char), (v = '0' ∨ v = '1') →
      r + 2 < g.size →
      get_cell r c g = v → get_cell ((r : Int) + 1) c g = v →
      get_cell ((r : Int) - 1) c (apply_consecutive_zeros_ones_columns g).1 ≠ '_') ∧
    (apply_consecutive_zeros_ones_rows
        ⟨4, ['0', '0', '_', '_',
             '_', '_', '_', '_',
             '_', '_', '_', '_',
             '_', '_', '_', '_']⟩).1 =
      ⟨4, ['0', '0', '1', '_',
           '_', '_', '_', '_',
           '_', '_', '_', '_',
           '_', '_', '_', '_']⟩ := by
  refine ⟨?_, ?_, ?_, by decide⟩
  · intro g r c v hv hc2 e0 e1 e2
    exact rows_pass_fires g r c v hv hc2 e0 e1 e2
  · intro g r c v hv hr2 e0 e1 e2
    exact cols_pass_fires g r c v hv hr2 e0 e1 e2
  · intro g r c v hv hr2 e0 e1
    exact cols_pass_fills_before g r c v hv hr2 e0 e1

set_option maxRecDepth 4000 in
/-- Witness for C4: the amended theorem applied at concrete inputs — the
rows pass on `0 0 _ _` forces (0,2) to '1', and the columns pass on a
vertical '0' pair in column 2 forces (2,2) to '1' and leaves (-1,2)
non-Empty. -/
theorem c4_run_completion_behaviour_witness :
    get_cell ((0 : Nat) : Int) (((0 : Nat) : Int) + 2)
      (apply_consecutive_zeros_ones_rows
        ⟨4, ['0', '0', '_', '_',
             '_', '_', '_', '_',
             '_', '_', '_', '_',
             '_', '_', '_', '_']⟩).1 = opposite '0' ∧
    get_cell (((0 : Nat) : Int) + 2) ((2 : Nat) : Int)
      (apply_consecutive_zeros_ones_columns
        ⟨4, ['_', '_', '0', '_',
             '_', '_', '0', '_',
             '_', '_', '_', '_',
             '_', '_', '_', '_']⟩).1 = opposite '0' ∧
    get_cell (((0 : Nat) : Int) - 1) ((2 : Nat) : Int)
      (apply_consecutive_zeros_ones_columns
        ⟨4, ['_', '_', '0', '_',
             '_', '_', '0', '_',
             '_', '_', '_', '_',
             '_', '_', '_', '_']⟩).1 ≠ '_' :=
  ⟨c4_run_completion_behaviour.1
      ⟨4, ['0', '0', '_', '_',
           '_', '_', '_', '_',
           '_', '_', '_', '_',
           '_', '_', '_', '_']⟩ 0 0 '0' (Or.inl rfl) (by decide)
      (by decide) (by decide) (by decide),
   c4_run_completion_behaviour.2.1
      ⟨4, ['_', '_', '0', '_',
           '_', '_', '0', '_',
           '_', '_', '_', '_',
           '_', '_', '_', '_']⟩ 0 2 '0' (Or.inl rfl) (by decide)
      (by decide) (by decide) (by decide),
   c4_run_completion_behaviour.2.2.1
      ⟨4, ['_', '_', '0', '_',
           '_', '_', '0', '_',
           '_', '_', '_', '_',
           '_', '_', '_', '_']⟩ 0 2 '0' (Or.inl rfl) (by decide)
      (by decide) (by decide)⟩
